import Mathlib

/-!
# DataApp1 front end (`src/frontend/script.js`)

A shallow embedding of the upload / progress / render script.

* The DOM and the `window` globals the script reads and writes are the fields
  of `AppState`; every handler is a function on `AppState`.
* An `async` handler is split at its `await`: the part that runs before the
  request is issued, and one continuation per way the request can settle.
* `setTimeout` / `setInterval` are a list of pending timers; `advanceTo`
  fires them in order of due time.
* `innerHTML` values are the strings the template literals build, with the
  layout whitespace between tags left out.
* The static page is assumed to contain every element the script looks up.
* A number is kept as the rational that its IEEE 754 double denotes; `/` and
  `*` on numbers round to the nearest double.
-/

namespace DataApp1

/-! ## Built-ins of the host language -/

/-- JavaScript `toLowerCase`, on the ASCII letters. The characters outside
ASCII never lower-case to one of `.`, `c`, `s`, `v`, so the `.csv` test of the
script does not depend on them. -/
def toLowerCase (s : String) : String :=
  ⟨s.data.map Char.toLower⟩

/-- JavaScript `endsWith`. -/
def endsWith (s suffix : String) : Bool :=
  suffix.data.isSuffixOf s.data

/-- The list left after the first occurrence of `pat` is cut out of `s`
(`s` itself when `pat` does not occur). -/
def removeFirst (pat : List Char) : List Char → List Char
  | [] => []
  | c :: cs => if pat.isPrefixOf (c :: cs) then (c :: cs).drop pat.length else c :: removeFirst pat cs

/-- JavaScript `s.replace(pat, '')` for a string pattern: only the first
occurrence is replaced, and the match is case-sensitive. -/
def replaceFirstWithEmpty (s pat : String) : String :=
  ⟨removeFirst pat.data s.data⟩

/-- JavaScript `s.split(sep)[0]` for a one-character separator. -/
def splitHead (s : String) (sep : Char) : String :=
  ⟨s.data.takeWhile (fun c => c != sep)⟩

/-- Two decimal digits, zero padded. -/
def pad2 (n : Nat) : String :=
  if n < 10 then "0" ++ toString n else toString n

/-- The number of binary digits of `n`; `fuel` bounds the recursion, and `n`
itself is fuel enough. -/
def bitLength : Nat → Nat → Nat
  | 0, _ => 0
  | fuel + 1, n => if n = 0 then 0 else bitLength fuel (n / 2) + 1

/-- The binary exponent of `x > 0`: the `e` with `2 ^ e ≤ x < 2 ^ (e + 1)`.
The difference of the bit lengths of numerator and denominator is `e` or
`e + 1`; the comparison picks. -/
def binade (x : ℚ) : Int :=
  let e0 : Int := (bitLength x.num.toNat x.num.toNat : Int) - (bitLength x.den x.den : Int)
  if (2 : ℚ) ^ e0 ≤ x then e0 else e0 - 1

/-- The integer nearest to `m`, the even one on a tie. -/
def roundHalfEven (m : ℚ) : Int :=
  let f := Int.floor m
  if m - f < 1 / 2 then f
  else if 1 / 2 < m - f then f + 1
  else if f % 2 = 0 then f else f + 1

/-- The double nearest to `x > 0`: `x` is scaled into `[2 ^ 52, 2 ^ 53)`,
rounded to an integer, and scaled back. -/
def roundPos (x : ℚ) : ℚ :=
  (roundHalfEven (x * (2 : ℚ) ^ (52 - binade x)) : ℚ) * (2 : ℚ) ^ (binade x - 52)

/-- The value of the IEEE 754 double nearest to `x` (binary64, ties to
even), for `x` in the range of the normal doubles. A JavaScript number is
such a double; its value is kept here as the rational it denotes. -/
def roundDouble (x : ℚ) : ℚ :=
  if x = 0 then 0 else if 0 < x then roundPos x else - roundPos (-x)

/-- JavaScript `a / b` on numbers. -/
def fdiv (a b : ℚ) : ℚ :=
  roundDouble (a / b)

/-- JavaScript `a * b` on numbers. -/
def fmul (a b : ℚ) : ℚ :=
  roundDouble (a * b)

/-- JavaScript `x.toFixed(2)` for the double of value `x`, `0 ≤ x < 10 ^ 21`:
the integer `n` nearest to `100 x` (the larger one on a tie), printed with a
point before its last two digits. The rounding is on the exact value of the
double. -/
def toFixed2 (x : ℚ) : String :=
  let n : Nat := (Int.floor (x * 100 + 1 / 2)).toNat
  toString (n / 100) ++ "." ++ pad2 (n % 100)

/-- JavaScript `x.toFixed(1)` for the double of value `x`,
`0 ≤ x < 10 ^ 21`. -/
def toFixed1 (x : ℚ) : String :=
  let n : Nat := (Int.floor (x * 10 + 1 / 2)).toNat
  toString (n / 10) ++ "." ++ toString (n % 10)

/-! ## Data model -/

/-- The file of the `csvFile` input. -/
structure SelectedFile where
  name : String
  content : String

/-- The record `basic_info.dimensions`. -/
structure Dimensions where
  rows : Int
  columns : Int

/-- The record `basic_info`; `none` is an absent (or `null`) field. Objects
are listed as their entries, in the order `Object.entries` yields them. -/
structure BasicInfo where
  dimensions : Option Dimensions
  shape : Option (List Int)
  dtypes : Option (List (String × String))
  non_null_counts : Option (List (String × Int))
  columns : Option (List String)
  numeric_columns : Option (List String)
  memory_usage : Option String
  head_html : Option String
  null_values : Option (List (String × Nat))
  data_types : Option (List (String × String))

/-- The summary of one numeric column. Each field holds the text the template
literal interpolates for it. -/
structure ColumnStats where
  count : String
  mean : String
  median : String
  std : String
  min : String
  max : String

/-- The two shapes of `statistical_summary`: the older one with a
`describe_html` string, and the map from column to summary. -/
inductive StatisticalSummary where
  | legacy (describe_html : String)
  | perColumn (entries : List (String × ColumnStats))

/-- The two shapes of an element of `ai_insights`. -/
inductive Insight where
  | text (s : String)
  | structured (title description : String) (recommendation : Option String)

/-- The body of a successful `/analyze` response. -/
structure AnalysisResult where
  basic_info : Option BasicInfo
  statistical_summary : Option StatisticalSummary
  correlation_heatmap : Option String
  histograms : Option (List String)
  boxplots : Option (List String)
  ai_insights : Option (List Insight)

/-- The result `{}`. -/
def AnalysisResult.empty : AnalysisResult :=
  ⟨none, none, none, none, none, none⟩

/-- The record `{}` for `basic_info`. -/
def BasicInfo.empty : BasicInfo :=
  ⟨none, none, none, none, none, none, none, none, none, none⟩

/-- Truthiness of a string value that may be absent. -/
def truthyStr : Option String → Bool
  | some s => s != ""
  | none => false

/-! ## Timers, requests and the page state -/

/-- The callbacks the script hands to `setTimeout` and `setInterval`. The
interval callback of `simulateProgress` carries its `currentStage`. -/
inductive TimerKind where
  | resetProgress
  | startSimulation
  | progressTick (currentStage : Nat)
  | hideSections
  | showResults (results : AnalysisResult)

/-- A pending timer: its handle, the time it is due, its callback. -/
structure Timer where
  id : Nat
  due : Nat
  kind : TimerKind

/-- The requests the script sends. -/
inductive Request where
  | analyze (file : SelectedFile)
  | generatePdf (results : AnalysisResult) (filename : String)
  | health

/-- The six containers `displayResults` fills. -/
structure Sections where
  datasetInfo : Option String
  basicStats : Option String
  nullValues : Option String
  columnDistribution : Option String
  visualizations : Option String
  aiInsights : Option String

/-- The page and `window` state. A section is `none` until the script assigns
its `innerHTML`. `progressLog` keeps every call of `updateProgress`, newest
first; `requests` every request sent, newest first. -/
structure AppState where
  csvFile : Option SelectedFile
  fileLabel : String
  analyzeBtnDisabled : Bool
  loadingHidden : Bool
  resultsHidden : Bool
  errorHidden : Bool
  selectedFileName : String
  errorMessage : String
  progressLog : List (Nat × String)
  downloadBtnHtml : String
  downloadBtnDisabled : Bool
  sections : Sections
  downloads : List String
  lastAnalysisResults : Option AnalysisResult
  lastFileName : Option String
  currentProgressInterval : Option Nat
  now : Nat
  nextTimerId : Nat
  timers : List Timer
  requests : List Request
  pendingAnalyze : List SelectedFile
  pendingPdf : List String

/-- A page as loaded, before any script has run: nothing cached, no timer
pending, no request sent. The markup is not part of the script; the page taken
here starts with the three areas hidden and the submit button disabled. The
general theorems hold from any page. -/
def AppState.initial : AppState where
  csvFile := none
  fileLabel := "Seleccionar archivo CSV"
  analyzeBtnDisabled := true
  loadingHidden := true
  resultsHidden := true
  errorHidden := true
  selectedFileName := ""
  errorMessage := ""
  progressLog := []
  downloadBtnHtml := "<span class=\"btn-icon\">📄</span>Descargar PDF"
  downloadBtnDisabled := false
  sections := ⟨none, none, none, none, none, none⟩
  downloads := []
  lastAnalysisResults := none
  lastFileName := none
  currentProgressInterval := none
  now := 0
  nextTimerId := 1
  timers := []
  requests := []
  pendingAnalyze := []
  pendingPdf := []

/-! ## Showing and hiding the three areas -/

/-- Source: `hideAllSections`. -/
def hideAllSections (s : AppState) : AppState :=
  { s with loadingHidden := true, resultsHidden := true, errorHidden := true }

/-- Source: `showError`. -/
def showError (message : String) (s : AppState) : AppState :=
  let s := hideAllSections s
  let s := { s with errorHidden := false }
  let s := { s with errorMessage := message }
  { s with analyzeBtnDisabled := false }

/-- Source: `initializeApp`. -/
def initializeApp (s : AppState) : AppState :=
  hideAllSections s

/-- Source: `handleFileSelect`, reading `event.target.files[0]`. -/
def handleFileSelect (s : AppState) : AppState :=
  match s.csvFile with
  | some file => { s with fileLabel := file.name, analyzeBtnDisabled := false }
  | none => { s with fileLabel := "Seleccionar archivo CSV", analyzeBtnDisabled := true }

/-! ## Timers and progress -/

/-- `setTimeout(kind, delay)` and the first scheduling of
`setInterval(kind, delay)`: the new timer gets the next handle. -/
def setTimer (kind : TimerKind) (delay : Nat) (s : AppState) : AppState :=
  { s with
    timers := s.timers ++ [⟨s.nextTimerId, s.now + delay, kind⟩]
    nextTimerId := s.nextTimerId + 1 }

/-- `clearInterval(id)`: a handle that is not pending is ignored. -/
def clearInterval (id : Nat) (s : AppState) : AppState :=
  { s with timers := s.timers.filter (fun t => t.id != id) }

/-- Truthiness of `window.currentProgressInterval`. -/
def intervalHandle (s : AppState) : Option Nat :=
  match s.currentProgressInterval with
  | some id => if id != 0 then some id else none
  | none => none

/-- Source: `updateProgress`; the fill width and the percentage text are both
`percent` followed by `%`. -/
def updateProgress (percent : Nat) (message : String) (s : AppState) : AppState :=
  { s with progressLog := (percent, message) :: s.progressLog }

/-- Source: `resetProgress`. -/
def resetProgress (s : AppState) : AppState :=
  updateProgress 0 "Iniciando análisis..." s

/-- Source: `showLoading`. -/
def showLoading (fileName : String) (s : AppState) : AppState :=
  let s := hideAllSections s
  let s := { s with loadingHidden := false }
  let s := if fileName != "" then { s with selectedFileName := fileName } else s
  let s := setTimer .resetProgress 100 s
  { s with analyzeBtnDisabled := true }

/-- The `stages` table of `simulateProgress`. -/
def stages : List (Nat × String) :=
  [(10, "Validando archivo..."),
   (25, "Cargando datos..."),
   (40, "Analizando estructura..."),
   (60, "Calculando estadísticas..."),
   (80, "Generando visualizaciones..."),
   (95, "Aplicando IA...")]

/-- Source: `simulateProgress`: the first stage at once, then an interval of
1000 ms whose handle is kept in `window.currentProgressInterval`. -/
def simulateProgress (s : AppState) : AppState :=
  let start : AppState × Nat :=
    match stages.head? with
    | some stage => (updateProgress stage.1 stage.2 s, 1)
    | none => (s, 0)
  let s := start.1
  let progressInterval := s.nextTimerId
  let s := setTimer (.progressTick start.2) 1000 s
  { s with currentProgressInterval := some progressInterval }

/-- Writes the `currentStage` of the interval `id` back into its closure. -/
def setStage (id stage : Nat) (s : AppState) : AppState :=
  { s with timers := s.timers.map (fun t => if t.id == id then { t with kind := .progressTick stage } else t) }

/-- The interval callback of `simulateProgress`. -/
def progressTick (id currentStage : Nat) (s : AppState) : AppState :=
  match stages.get? currentStage with
  | some stage => setStage id (currentStage + 1) (updateProgress stage.1 stage.2 s)
  | none => { clearInterval id s with currentProgressInterval := none }

/-- Source: `completeProgress`. -/
def completeProgress (s : AppState) : AppState :=
  let s := match intervalHandle s with
    | some id => clearInterval id s
    | none => s
  let s := updateProgress 100 "¡Análisis completado!" s
  setTimer .hideSections 500 s

/-! ## Submission -/

/-- Source: `analyzeData`, up to the `await fetch`. -/
def analyzeData (file : SelectedFile) (s : AppState) : AppState :=
  let s := showLoading file.name s
  let s := setTimer .startSimulation 200 s
  { s with requests := .analyze file :: s.requests, pendingAnalyze := s.pendingAnalyze ++ [file] }

/-- Source: `analyzeData`, from a response that is `ok` and parses to
`results` to the end of the `try` block. -/
def analyzeDataSuccess (file : SelectedFile) (results : AnalysisResult) (s : AppState) : AppState :=
  let s := completeProgress s
  let s := { s with lastAnalysisResults := some results }
  let s := { s with lastFileName := some file.name }
  setTimer (.showResults results) 1000 s

/-- Source: `analyzeData`, the `catch` block: reached when `fetch` rejects,
the response is not `ok`, or its body does not parse. -/
def analyzeDataFailure (s : AppState) : AppState :=
  let s := match intervalHandle s with
    | some id => clearInterval id s
    | none => s
  showError "Error al analizar el archivo. Verifica que el servidor esté ejecutándose." s

/-- Source: `handleFormSubmit`. -/
def handleFormSubmit (s : AppState) : AppState :=
  match s.csvFile with
  | none => showError "Por favor selecciona un archivo CSV" s
  | some file =>
    if !endsWith (toLowerCase file.name) ".csv" then
      showError "Por favor selecciona un archivo con extensión .csv" s
    else
      analyzeData file s

/-! ## Rendering the result -/

/-- An exception that leaves a handler: its message and the page state at the
point where it was thrown. -/
structure Thrown where
  error : String
  state : AppState

/-- The text JavaScript interpolates for `xs[i]` of a number array. -/
def shapeText (shape : List Int) (i : Nat) : String :=
  match shape.get? i with
  | some n => toString n
  | none => "undefined"

/-- The interpolation `dimension || (info.shape ? info.shape[i] : 'N/A')`,
where `dimension` is `info.dimensions?.rows` or `info.dimensions?.columns`:
a dimension that is absent or `0` is falsy. -/
def dimensionText (dimension : Option Int) (shape : Option (List Int)) (i : Nat) : String :=
  match dimension with
  | some n => if n != 0 then toString n else
      match shape with
      | some sh => shapeText sh i
      | none => "N/A"
  | none =>
      match shape with
      | some sh => shapeText sh i
      | none => "N/A"

/-- The text interpolated for a property that an object parsed from JSON
does not have itself and finds on `Object.prototype`: a method prints as its
source text (the form V8 gives), `__proto__` is the prototype object. `none`
for every other name. -/
def objectPrototypeText (key : String) : Option String :=
  if key == "__proto__" then some "[object Object]"
  else if key == "constructor" then some "function Object() \x7b [native code] \x7d"
  else if ["hasOwnProperty", "isPrototypeOf", "propertyIsEnumerable", "toLocaleString", "toString",
      "valueOf", "__defineGetter__", "__defineSetter__", "__lookupGetter__", "__lookupSetter__"].contains key
    then some ("function " ++ key ++ "() \x7b [native code] \x7d")
  else none

/-- The interpolation `info.non_null_counts[col] || 'N/A'`: an own count of
0 is falsy; a column the object does not hold is looked up on
`Object.prototype`, whose values are truthy. -/
def nonNullText (counts : List (String × Int)) (col : String) : String :=
  match counts.lookup col with
  | some n => if n != 0 then toString n else "N/A"
  | none =>
    match objectPrototypeText col with
    | some text => text
    | none => "N/A"

/-- The string `displayDatasetInfo` assigns to the `datasetInfo` container. -/
def datasetInfoHtml (info : BasicInfo) : String :=
  let dtypesTable : String :=
    match info.dtypes, info.non_null_counts with
    | some dtypes, some counts =>
        "<div class=\"info-box\"><h4>🔤 Tipos de Datos</h4><table><thead><tr><th>Columna</th><th>Tipo de Dato</th><th>Valores No Nulos</th></tr></thead><tbody>"
        ++ String.join (dtypes.map (fun e =>
            "<tr><td>" ++ e.1 ++ "</td><td>" ++ e.2 ++ "</td><td>" ++ nonNullText counts e.1 ++ "</td></tr>"))
        ++ "</tbody></table></div>"
    | _, _ => ""
  let columnsInfo : String :=
    match info.columns with
    | some columns =>
        "<div class=\"info-box\"><h4>📋 Columnas del Dataset</h4><p><strong>Total de columnas:</strong> "
        ++ toString columns.length
        ++ "</p><p><strong>Columnas numéricas:</strong> "
        ++ (match info.numeric_columns with
            | some numeric => toString numeric.length
            | none => "0")
        ++ "</p><div class=\"columns-list\">"
        ++ String.join (columns.map (fun col => "<span class=\"column-tag\">" ++ col ++ "</span>"))
        ++ "</div></div>"
    | none => ""
  let memoryInfo : String :=
    match info.memory_usage with
    | some m => if m != "" then "<p><strong>Memoria utilizada:</strong> " ++ m ++ "</p>" else ""
    | none => ""
  "<div class=\"info-box\"><h4>📊 Dimensiones del Dataset</h4><p><strong>Filas:</strong> "
  ++ dimensionText (info.dimensions.map (fun d => d.rows)) info.shape 0
  ++ "</p><p><strong>Columnas:</strong> "
  ++ dimensionText (info.dimensions.map (fun d => d.columns)) info.shape 1
  ++ "</p>" ++ memoryInfo ++ "</div>"
  ++ dtypesTable
  ++ columnsInfo
  ++ (match info.head_html with
      | some h => if h != "" then
          "<div class=\"info-box\"><h4>👀 Primeras 5 filas</h4><div style=\"overflow-x: auto;\">" ++ h ++ "</div></div>"
        else ""
      | none => "")

/-- Source: `displayDatasetInfo`. Reading `info.dtypes` throws a `TypeError`
when `info` is `undefined`. -/
def displayDatasetInfo (info : Option BasicInfo) (s : AppState) : Except Thrown AppState :=
  match info with
  | none => .error ⟨"TypeError: info is undefined", s⟩
  | some info => .ok { s with sections := { s.sections with datasetInfo := some (datasetInfoHtml info) } }

/-- One block of the statistics grid. -/
def statColumnHtml (column : String) (c : ColumnStats) : String :=
  "<div class=\"stat-column\"><h5>📊 " ++ column ++ "</h5><table class=\"stats-table\"><tbody>"
  ++ "<tr><td><strong>Conteo:</strong></td><td>" ++ c.count ++ "</td></tr>"
  ++ "<tr><td><strong>Media:</strong></td><td>" ++ c.mean ++ "</td></tr>"
  ++ "<tr><td><strong>Mediana:</strong></td><td>" ++ c.median ++ "</td></tr>"
  ++ "<tr><td><strong>Desv. Est.:</strong></td><td>" ++ c.std ++ "</td></tr>"
  ++ "<tr><td><strong>Mínimo:</strong></td><td>" ++ c.min ++ "</td></tr>"
  ++ "<tr><td><strong>Máximo:</strong></td><td>" ++ c.max ++ "</td></tr>"
  ++ "</tbody></table></div>"

/-- The placeholder of `displayBasicStats`. -/
def noStatsHtml : String :=
  "<div class=\"info-box\"><h4>📈 Estadísticos Descriptivos</h4><p>No hay columnas numéricas para mostrar estadísticos.</p></div>"

/-- The grid branch of `displayBasicStats`. -/
def statsGridHtml (entries : List (String × ColumnStats)) : String :=
  "<div class=\"info-box\"><h4>📈 Estadísticos Descriptivos</h4><div class=\"stats-grid\">"
  ++ String.join (entries.map (fun e => statColumnHtml e.1 e.2))
  ++ "</div></div>"

/-- The `describe_html` branch of `displayBasicStats`. -/
def statsLegacyHtml (describe_html : String) : String :=
  "<div class=\"info-box\"><h4>📈 Estadísticos Descriptivos</h4><div style=\"overflow-x: auto;\">"
  ++ describe_html ++ "</div></div>"

/-- The string `displayBasicStats` assigns to the `basicStats` container. An
empty `describe_html` is falsy, so the record is then read as a map with the
one key `describe_html`, whose six fields are `undefined`; a column that is
itself called `describe_html` is a truthy object and is interpolated as
text. -/
def basicStatsHtml : Option StatisticalSummary → String
  | none => noStatsHtml
  | some (.legacy h) =>
      if h != "" then statsLegacyHtml h
      else statsGridHtml [("describe_html", ⟨"undefined", "undefined", "undefined", "undefined", "undefined", "undefined"⟩)]
  | some (.perColumn entries) =>
      if entries.length == 0 then noStatsHtml
      else match entries.lookup "describe_html" with
        | some _ => statsLegacyHtml "[object Object]"
        | none => statsGridHtml entries

/-- Source: `displayBasicStats`. -/
def displayBasicStats (stats : Option StatisticalSummary) (s : AppState) : AppState :=
  { s with sections := { s.sections with basicStats := some (basicStatsHtml stats) } }

/-- The constant `hasNulls` of `displayNullValues`. -/
def hasNulls (nullValues : List (String × Nat)) : Bool :=
  (nullValues.map (fun e => e.2)).any (fun count => count > 0)

/-- The percentage cell of `displayNullValues`:
`count > 0 ? ((count / 100) * 100).toFixed(2) : '0.00'`, division and
multiplication being those of doubles. `count` is the value of the number in
the response. -/
def nullPercentage (count : Nat) : String :=
  if count > 0 then toFixed2 (fmul (fdiv (count : ℚ) 100) 100) else "0.00"

/-- One row of the table of `displayNullValues`. -/
def nullRowHtml (e : String × Nat) : String :=
  "<tr><td>" ++ e.1 ++ "</td><td>" ++ toString e.2 ++ "</td><td>" ++ nullPercentage e.2 ++ "%</td></tr>"

/-- The summary box of `displayNullValues`. -/
def nullBoxHtml (nulls : Bool) : String :=
  "<div class=\"" ++ (if nulls then "warning-box" else "success-box") ++ "\"><h4>🔍 Resumen de Valores Nulos</h4>"
  ++ (if nulls then "<p>⚠️ Se encontraron valores nulos en el dataset:</p>"
      else "<p>✅ ¡Excelente! No se encontraron valores nulos en el dataset.</p>")
  ++ "</div>"

/-- The table of `displayNullValues`. -/
def nullTableHtml (nullValues : List (String × Nat)) : String :=
  "<table><thead><tr><th>Columna</th><th>Valores Nulos</th><th>Porcentaje</th></tr></thead><tbody>"
  ++ String.join (nullValues.map nullRowHtml)
  ++ "</tbody></table>"

/-- The string `displayNullValues` assigns to the `nullValues` container. -/
def nullValuesHtml : Option (List (String × Nat)) → String
  | none => "<div class=\"info-box\"><h4>🔍 Valores Nulos</h4><p>No se pudo obtener información sobre valores nulos.</p></div>"
  | some nullValues =>
      let html := nullBoxHtml (hasNulls nullValues)
      if hasNulls nullValues then html ++ nullTableHtml nullValues else html

/-- Source: `displayNullValues`. -/
def displayNullValues (nullValues : Option (List (String × Nat))) (s : AppState) : AppState :=
  { s with sections := { s.sections with nullValues := some (nullValuesHtml nullValues) } }

/-- The object `typeCounts` of `displayColumnDistribution`, as its entries:
one more for a type already counted, a new entry otherwise. The keys are the
type names the analysis service gives to columns; none of them is taken to be
the name of a property of `Object.prototype` or an array index. -/
def countType (typeCounts : List (String × Nat)) (type : String) : List (String × Nat) :=
  match typeCounts.lookup type with
  | some _ => typeCounts.map (fun e => if e.1 == type then (e.1, e.2 + 1) else e)
  | none => typeCounts ++ [(type, 1)]

/-- The placeholder of `displayColumnDistribution`. -/
def noDistributionHtml : String :=
  "<div class=\"info-box\"><h4>📋 Distribución de Columnas</h4><p>No se pudo obtener información sobre la distribución de columnas.</p></div>"

/-- The string `displayColumnDistribution` assigns to the
`columnDistribution` container. -/
def columnDistributionHtml : Option (List (String × String)) → String
  | none => noDistributionHtml
  | some dataTypes =>
      if dataTypes.length == 0 then noDistributionHtml
      else
        let typeCounts := (dataTypes.map (fun e => e.2)).foldl countType []
        "<div class=\"info-box\"><h4>📋 Distribución de Columnas</h4><div class=\"type-distribution\">"
        ++ typeCounts.foldl (fun html e =>
            html ++ "<div class=\"type-item\"><span class=\"type-label\">" ++ e.1
              ++ ":</span><span class=\"type-count\">" ++ toString e.2 ++ " columnas ("
              ++ toFixed1 (fmul (fdiv (e.2 : ℚ) (dataTypes.length : ℚ)) 100) ++ "%)</span></div>") ""
        ++ "</div><div class=\"columns-list\">"
        ++ String.join (dataTypes.map (fun e =>
            "<span class=\"column-tag " ++ toLowerCase e.2 ++ "\">" ++ e.1 ++ " (" ++ e.2 ++ ")</span>"))
        ++ "</div></div>"

/-- Source: `displayColumnDistribution`. -/
def displayColumnDistribution (dataTypes : Option (List (String × String))) (s : AppState) : AppState :=
  { s with sections := { s.sections with columnDistribution := some (columnDistributionHtml dataTypes) } }

/-- Truthiness of `xs && xs.length > 0` for an array that may be absent. -/
def nonEmptyList {α : Type} : Option (List α) → Bool
  | some xs => xs.length > 0
  | none => false

/-- The images of one grid of `displayVisualizations`; `alt` numbers them
from 1. -/
def plotsHtml (label : String) (plots : List String) : String :=
  (plots.enum.foldl (fun html p =>
      html ++ "<div class=\"plot-container\"><img src=\"" ++ p.2 ++ "\" alt=\"" ++ label ++ " "
        ++ toString (p.1 + 1) ++ "\" style=\"max-width: 100%; height: auto;\"></div>") "")

/-- The string the definition of `displayVisualizations` in effect (the
second one) assigns to the `visualizations` container. -/
def visualizationsHtml (results : AnalysisResult) : String :=
  let html := "<div class=\"info-box\"><h4>📊 Visualizaciones</h4>"
  let html := if truthyStr results.correlation_heatmap then
      html ++ "<div class=\"visualization-section\"><h5>🔥 Matriz de Correlación</h5><div class=\"plot-container\"><img src=\""
        ++ results.correlation_heatmap.getD "" ++ "\" alt=\"Matriz de Correlación\" style=\"max-width: 100%; height: auto;\"></div></div>"
    else html
  let html := if nonEmptyList results.histograms then
      html ++ "<div class=\"visualization-section\"><h5>📈 Histogramas</h5><div class=\"plots-grid\">"
        ++ plotsHtml "Histograma" (results.histograms.getD []) ++ "</div></div>"
    else html
  let html := if nonEmptyList results.boxplots then
      html ++ "<div class=\"visualization-section\"><h5>📦 Boxplots</h5><div class=\"plots-grid\">"
        ++ plotsHtml "Boxplot" (results.boxplots.getD []) ++ "</div></div>"
    else html
  let html := if !truthyStr results.correlation_heatmap && !nonEmptyList results.histograms
        && !nonEmptyList results.boxplots then
      html ++ "<p>No se generaron visualizaciones para este dataset.</p>"
    else html
  html ++ "</div>"

/-- Source: `displayVisualizations` (the definition in effect). -/
def displayVisualizations (results : AnalysisResult) (s : AppState) : AppState :=
  { s with sections := { s.sections with visualizations := some (visualizationsHtml results) } }

/-- The text of the interpolation of a whole insight: a string is itself, an
object is converted by `Object.prototype.toString`. -/
def insightText : Insight → String
  | .text s => s
  | .structured _ _ _ => "[object Object]"

/-- The text of the interpolation of `insight.title` and the like: a
string has no such property, and a missing property reads `undefined`. -/
def insightTitle : Insight → String
  | .text _ => "undefined"
  | .structured title _ _ => title

/-- The interpolation of `insight.description`. -/
def insightDescription : Insight → String
  | .text _ => "undefined"
  | .structured _ description _ => description

/-- The value of `insight.recommendation`, when truthy. -/
def insightRecommendation : Insight → Option String
  | .text _ => none
  | .structured _ _ r => match r with
    | some r => if r != "" then some r else none
    | none => none

/-- The empty-state message of the definition of `displayAIInsights` in
effect. -/
def noInsightsHtml : String :=
  "<div class=\"info-box\"><h4>🤖 Insights de IA</h4><p>No se generaron insights para este dataset.</p></div>"

/-- The item the loop of `displayAIInsights` appends for one element. -/
def insightItemHtml (insight : Insight) : String :=
  "<div class=\"insight-item\">" ++ insightText insight ++ "</div>"

/-- The string the definition of `displayAIInsights` in effect (the second
one, which replaces the first when the script is loaded) assigns to the
`aiInsights` container. -/
def aiInsightsHtml : Option (List Insight) → String
  | none => noInsightsHtml
  | some insights =>
      if insights.length == 0 then noInsightsHtml
      else
        let html := "<div class=\"info-box\"><h4>🤖 Insights de IA</h4><div class=\"insights-list\">"
        let html := insights.foldl (fun html insight => html ++ insightItemHtml insight) html
        html ++ "</div></div>"

/-- The item of the first definition of `displayAIInsights`, which the second
one overrides. -/
def insightItemHtmlOverridden (insight : Insight) : String :=
  "<div class=\"insight-item\"><h5>" ++ insightTitle insight ++ "</h5><p>" ++ insightDescription insight ++ "</p>"
  ++ (match insightRecommendation insight with
      | some r => "<p><strong>Recomendación:</strong> " ++ r ++ "</p>"
      | none => "")
  ++ "</div>"

/-- The string the first definition of `displayAIInsights` would assign; it
is never called, being overridden. -/
def aiInsightsHtmlOverridden : Option (List Insight) → String
  | none => "<p>No se generaron insights automáticos.</p>"
  | some insights =>
      if insights.length == 0 then "<p>No se generaron insights automáticos.</p>"
      else
        "<div class=\"info-box\"><h4>🤖 Análisis Automático</h4>"
        ++ "<hr style=\"margin: 15px 0;\">".intercalate (insights.map insightItemHtmlOverridden)
        ++ "</div>"

/-- Source: `displayAIInsights` (the definition in effect). -/
def displayAIInsights (insights : Option (List Insight)) (s : AppState) : AppState :=
  { s with sections := { s.sections with aiInsights := some (aiInsightsHtml insights) } }

/-- Source: `displayResults`. An object or an array is truthy, so each guard
is a test for presence. -/
def displayResults (results : AnalysisResult) (s : AppState) : Except Thrown AppState := do
  let s := hideAllSections s
  let s := { s with resultsHidden := false }
  let s := { s with analyzeBtnDisabled := false }
  let s ← displayDatasetInfo results.basic_info s
  let s := displayBasicStats results.statistical_summary s
  let s := match results.basic_info.bind (fun info => info.null_values) with
    | some nullValues => displayNullValues (some nullValues) s
    | none => s
  let s := match results.basic_info.bind (fun info => info.data_types) with
    | some dataTypes => displayColumnDistribution (some dataTypes) s
    | none => s
  let s := displayVisualizations results s
  let s := match results.ai_insights with
    | some insights => displayAIInsights (some insights) s
    | none => s
  return s

/-! ## Errors outside the submission, and the PDF export -/

/-- The listener of the `error` event of `window`. -/
def onGlobalError (s : AppState) : AppState :=
  showError "Ocurrió un error inesperado. Por favor, recarga la página." s

/-- Source: `checkServerStatus`, up to the `await fetch`. -/
def checkServerStatus (s : AppState) : AppState :=
  { s with requests := .health :: s.requests }

/-- Source: `checkServerStatus`, the `catch` block. -/
def checkServerStatusFailure (s : AppState) : AppState :=
  showError "No se puede conectar al servidor. Asegúrate de que esté ejecutándose en el puerto 5000." s

/-- The value of `link.download` in `handleDownloadPDF`; `iso` is the value
of `new Date().toISOString()`. -/
def downloadName (lastFileName iso : String) : String :=
  "analisis_" ++ replaceFirstWithEmpty lastFileName ".csv" ++ "_" ++ splitHead iso 'T' ++ ".pdf"

/-- Source: `handleDownloadPDF`, up to the `await fetch`. -/
def handleDownloadPDF (s : AppState) : AppState :=
  match s.lastAnalysisResults, s.lastFileName with
  | some results, some filename =>
    if filename != "" then
      let originalText := s.downloadBtnHtml
      let s := { s with downloadBtnHtml := "<span class=\"btn-icon\">⏳</span>Generando PDF..." }
      let s := { s with downloadBtnDisabled := true }
      { s with requests := .generatePdf results filename :: s.requests, pendingPdf := s.pendingPdf ++ [originalText] }
    else showError "No hay resultados de análisis disponibles para descargar." s
  | _, _ => showError "No hay resultados de análisis disponibles para descargar." s

/-- Source: `handleDownloadPDF`, the `catch` block. -/
def handleDownloadPDFFailure (s : AppState) : AppState :=
  let s := showError "Error al generar el PDF. Intenta nuevamente." s
  let s := { s with downloadBtnHtml := "<span class=\"btn-icon\">📄</span>Descargar PDF" }
  { s with downloadBtnDisabled := false }

/-- Source: `handleDownloadPDF`, from a response that is `ok` to the end of
the `try` block. `window.lastFileName` is read again here. -/
def handleDownloadPDFSuccess (originalText iso : String) (s : AppState) : AppState :=
  match s.lastFileName with
  | some filename =>
    let s := { s with downloads := downloadName filename iso :: s.downloads }
    let s := { s with downloadBtnHtml := originalText }
    { s with downloadBtnDisabled := false }
  | none => handleDownloadPDFFailure s

/-! ## The event loop -/

/-- Pushes the interval `t` back by its period of 1000 ms. -/
def reschedule (t : Timer) (s : AppState) : AppState :=
  { s with timers := s.timers.map (fun u => if u.id == t.id then { u with due := t.due + 1000 } else u) }

/-- Runs the callback of a timer that has come due. A one-shot timer is
removed first; the interval is pushed back by its period. An exception that
leaves a callback reaches the `error` listener of `window`. -/
def fireTimer (t : Timer) (s : AppState) : AppState :=
  let s := { s with now := max s.now t.due }
  match t.kind with
  | .resetProgress => resetProgress (clearInterval t.id s)
  | .startSimulation => simulateProgress (clearInterval t.id s)
  | .hideSections => hideAllSections (clearInterval t.id s)
  | .showResults results =>
      match displayResults results (clearInterval t.id s) with
      | .ok s => s
      | .error thrown => onGlobalError thrown.state
  | .progressTick currentStage => progressTick t.id currentStage (reschedule t s)

/-- The pending timer that fires next: the least due time, and among equal
due times the one set first. -/
def nextTimer : List Timer → Option Timer
  | [] => none
  | t :: ts =>
    match nextTimer ts with
    | some u => if u.due < t.due ∨ (u.due = t.due ∧ u.id < t.id) then some u else some t
    | none => some t

/-- Lets time pass up to `limit`: fires, in order, every timer due by then.
`fuel` bounds the number of callbacks run. -/
def advanceTo (limit : Nat) : Nat → AppState → AppState
  | 0, s => s
  | fuel + 1, s =>
    match nextTimer s.timers with
    | some t => if t.due ≤ limit then advanceTo limit fuel (fireTimer t s) else { s with now := max s.now limit }
    | none => { s with now := max s.now limit }

/-- The ways the `/analyze` request of a submission can settle. -/
inductive AnalyzeOutcome where
  | success (results : AnalysisResult)
  | failure

/-- Continues `analyzeData` once the `i`-th request in flight has settled;
nothing happens when there is no such request. -/
def settleAnalyze (i : Nat) (outcome : AnalyzeOutcome) (s : AppState) : AppState :=
  match s.pendingAnalyze.get? i with
  | some file =>
    let s := { s with pendingAnalyze := s.pendingAnalyze.eraseIdx i }
    match outcome with
    | .success results => analyzeDataSuccess file results s
    | .failure => analyzeDataFailure s
  | none => s

/-- One submission against the clock: `file` is chosen and submitted at time
0 on the initialised page, the request settles at time `arrival` (after the
timers due by then), and time then passes up to `horizon`. -/
def runSubmission (file : SelectedFile) (arrival : Nat) (outcome : AnalyzeOutcome) (horizon : Nat) : AppState :=
  let s := initializeApp AppState.initial
  let s := handleFileSelect { s with csvFile := some file }
  let s := handleFormSubmit s
  let s := advanceTo arrival 32 s
  let s := settleAnalyze 0 outcome s
  advanceTo horizon 32 s

/-- The page right after `data.csv` has been chosen and submitted at time 0:
the state from which `runSubmission` lets time pass. -/
def submitted : AppState :=
  handleFormSubmit (handleFileSelect { initializeApp AppState.initial with csvFile := some ⟨"data.csv", "a,b"⟩ })

/-- Fires the timer that is next, if there is one. -/
def fireNext (s : AppState) : AppState :=
  match nextTimer s.timers with
  | some t => fireTimer t s
  | none => s

/-- The time at which the next timer is due. -/
def nextDue (s : AppState) : Option Nat :=
  (nextTimer s.timers).map (fun t => t.due)

/-- The percentages passed to `updateProgress`, oldest first. -/
def percents (s : AppState) : List Nat :=
  (s.progressLog.map (fun p => p.1)).reverse

/-- The percentage on display: that of the latest `updateProgress`. -/
def displayedPercent (s : AppState) : Option Nat :=
  s.progressLog.head?.map (fun p => p.1)

/-! ## The page as a transition system -/

/-- What can happen to the page: the user acts, a request settles, a timer
comes due, the `error` event of `window` fires. -/
inductive Event where
  | fileSelect (file : Option SelectedFile)
  | submit
  | analyzeSettled (i : Nat) (outcome : AnalyzeOutcome)
  | timer (id : Nat)
  | downloadClick
  | pdfOk (i : Nat) (iso : String)
  | pdfFail (i : Nat)
  | healthFail
  | globalError

/-- The state after an event, or `none` when the event cannot happen in `s`:
the browser does not submit the form through a disabled button, only a request
in flight settles, only a pending timer fires. Timers may fire in any order
here, which covers every order the clock allows. -/
def step (e : Event) (s : AppState) : Option AppState :=
  match e with
  | .fileSelect file => some (handleFileSelect { s with csvFile := file })
  | .submit => if s.analyzeBtnDisabled then none else some (handleFormSubmit s)
  | .analyzeSettled i outcome => if i < s.pendingAnalyze.length then some (settleAnalyze i outcome s) else none
  | .timer id =>
      match s.timers.find? (fun t => t.id == id) with
      | some t => some (fireTimer t s)
      | none => none
  | .downloadClick => some (handleDownloadPDF s)
  | .pdfOk i iso =>
      match s.pendingPdf.get? i with
      | some originalText => some (handleDownloadPDFSuccess originalText iso { s with pendingPdf := s.pendingPdf.eraseIdx i })
      | none => none
  | .pdfFail i =>
      if i < s.pendingPdf.length then some (handleDownloadPDFFailure { s with pendingPdf := s.pendingPdf.eraseIdx i }) else none
  | .healthFail => some (checkServerStatusFailure s)
  | .globalError => some (onGlobalError s)

/-- The state after a sequence of events, `none` when one of them cannot
happen. -/
def runEvents : List Event → AppState → Option AppState
  | [], s => some s
  | e :: es, s => (step e s).bind (runEvents es)

/-- Whether a timer is the delayed `displayResults` of `analyzeData`. -/
def Timer.isShowResults (t : Timer) : Bool :=
  match t.kind with
  | .showResults _ => true
  | _ => false

/-- The number of pending timers that are a delayed `displayResults`. -/
def showCount (s : AppState) : Nat :=
  (s.timers.filter Timer.isShowResults).length

/-- The number of submissions not yet finished: requests in flight, and
results received whose display is still pending. -/
def unfinished (s : AppState) : Nat :=
  s.pendingAnalyze.length + showCount s

/-- The `hidden` flags of the loading, results and error areas. -/
def hiddenFlags (s : AppState) : Bool × Bool × Bool :=
  (s.loadingHidden, s.resultsHidden, s.errorHidden)

/-- The invariant behind the guard: at most one submission is unfinished, and
the submit button is disabled while one is. -/
def Guarded (s : AppState) : Prop :=
  unfinished s ≤ 1 ∧ (0 < unfinished s → s.analyzeBtnDisabled = true)

/-- Whether an event in state `s` re-enables the submit button from outside
the submission: a file is chosen, or `showError` runs for the export, the
health probe or the `error` listener. -/
def reenables (e : Event) (s : AppState) : Bool :=
  match e with
  | .fileSelect (some _) => true
  | .downloadClick => s.lastAnalysisResults.isNone || !truthyStr s.lastFileName
  | .pdfOk _ _ => s.lastFileName.isNone
  | .pdfFail _ => true
  | .healthFail => true
  | .globalError => true
  | _ => false

/-- Like `runEvents`, with the events that re-enable the button from outside
happening only while no submission is unfinished. -/
def runEventsApart : List Event → AppState → Option AppState
  | [], s => some s
  | e :: es, s =>
    if reenables e s && unfinished s != 0 then none
    else (step e s).bind (runEventsApart es)

/-- The number of areas (loading, results, error) on display. -/
def visibleCount (s : AppState) : Nat :=
  (if s.loadingHidden then 0 else 1) + (if s.resultsHidden then 0 else 1) + (if s.errorHidden then 0 else 1)

/-- The reading of the words "ends, case-insensitively, with .csv": the name is
some stem followed by a dot and the letters c, s, v, each in either case. -/
def EndsWithCsvIgnoringCase (name : String) : Prop :=
  ∃ (stem : List Char) (c s v : Char),
    name.data = stem ++ ['.', c, s, v] ∧ (c = 'c' ∨ c = 'C') ∧ (s = 's' ∨ s = 'S') ∧ (v = 'v' ∨ v = 'V')

/-! ## Lemmas on the built-ins -/

theorem char_eq_of_toNat {x y : Char} (h : x.toNat = y.toNat) : x = y :=
  Char.ext (UInt32.ext h)

theorem toNat_ofNat_shift (n : Nat) (h2 : 65 ≤ n) (h1 : n ≤ 90) :
    (Char.ofNat (n + 32)).toNat = n + 32 := by
  interval_cases n <;> rfl

/-- A lower-case letter `l` is the lower-casing of itself and of its capital
`u` only. -/
theorem toLower_eq_letter (x l u : Char) (hl : ¬ (65 ≤ l.toNat ∧ l.toNat ≤ 90))
    (hu : 65 ≤ u.toNat ∧ u.toNat ≤ 90) (hul : l.toNat = u.toNat + 32) :
    x.toLower = l ↔ (x = l ∨ x = u) := by
  constructor
  · intro h
    simp only [Char.toLower] at h
    split at h
    · rename_i hr
      right
      apply char_eq_of_toNat
      have h3 : (Char.ofNat (x.toNat + 32)).toNat = l.toNat := by rw [h]
      have h4 := toNat_ofNat_shift x.toNat hr.1 hr.2
      omega
    · left; exact h
  · rintro (h | h)
    · subst h
      simp only [Char.toLower]
      rw [if_neg hl]
    · subst h
      simp only [Char.toLower]
      rw [if_pos hu]
      apply char_eq_of_toNat
      have h4 := toNat_ofNat_shift x.toNat hu.1 hu.2
      omega

theorem toLower_eq_dot (x : Char) : x.toLower = '.' ↔ x = '.' := by
  constructor
  · intro h
    simp only [Char.toLower] at h
    split at h
    · rename_i hr
      exfalso
      have h3 : (Char.ofNat (x.toNat + 32)).toNat = 46 := by rw [h]; rfl
      have h4 := toNat_ofNat_shift x.toNat hr.1 hr.2
      omega
    · exact h
  · rintro rfl; decide

/-- The test of `handleFormSubmit` on the name is the case-insensitive
`.csv` suffix. -/
theorem endsWith_csv_iff (name : String) :
    endsWith (toLowerCase name) ".csv" = true ↔ EndsWithCsvIgnoringCase name := by
  unfold endsWith toLowerCase EndsWithCsvIgnoringCase
  rw [List.isSuffixOf_iff_suffix]
  have e : ".csv".data = ['.', 'c', 's', 'v'] := rfl
  rw [e]
  constructor
  · rintro ⟨t, ht⟩
    obtain ⟨l₁, l₂, h1, -, h3⟩ := List.map_eq_append_iff.mp ht.symm
    obtain ⟨d, r1, rfl, hd, h3⟩ := List.map_eq_cons_iff.mp h3
    obtain ⟨c, r2, rfl, hc, h3⟩ := List.map_eq_cons_iff.mp h3
    obtain ⟨s, r3, rfl, hs, h3⟩ := List.map_eq_cons_iff.mp h3
    obtain ⟨v, r4, rfl, hv, h3⟩ := List.map_eq_cons_iff.mp h3
    have : r4 = [] := List.map_eq_nil_iff.mp h3
    subst this
    rw [toLower_eq_dot] at hd
    subst hd
    exact ⟨l₁, c, s, v, h1, (toLower_eq_letter c 'c' 'C' (by decide) (by decide) (by decide)).mp hc,
      (toLower_eq_letter s 's' 'S' (by decide) (by decide) (by decide)).mp hs,
      (toLower_eq_letter v 'v' 'V' (by decide) (by decide) (by decide)).mp hv⟩
  · rintro ⟨stem, c, s, v, h, hc, hs, hv⟩
    refine ⟨stem.map Char.toLower, ?_⟩
    rw [h, List.map_append]
    congr 1
    simp only [List.map_cons, List.map_nil]
    rw [(toLower_eq_letter c 'c' 'C' (by decide) (by decide) (by decide)).mpr hc,
      (toLower_eq_letter s 's' 'S' (by decide) (by decide) (by decide)).mpr hs,
      (toLower_eq_letter v 'v' 'V' (by decide) (by decide) (by decide)).mpr hv]
    rfl

/-! ## Lemmas on the handlers -/

theorem showError_requests (m : String) (s : AppState) : (showError m s).requests = s.requests := rfl

theorem showError_pendingAnalyze (m : String) (s : AppState) :
    (showError m s).pendingAnalyze = s.pendingAnalyze := rfl

theorem analyzeData_requests (file : SelectedFile) (s : AppState) :
    (analyzeData file s).requests = Request.analyze file :: s.requests := by
  simp only [analyzeData, showLoading, setTimer, hideAllSections]
  split <;> rfl

theorem handleFormSubmit_valid (s : AppState) (file : SelectedFile) (h : s.csvFile = some file)
    (hn : EndsWithCsvIgnoringCase file.name) : handleFormSubmit s = analyzeData file s := by
  have hb := (endsWith_csv_iff file.name).mpr hn
  simp [handleFormSubmit, h, hb]

theorem handleFormSubmit_invalid (s : AppState)
    (h : ¬ ∃ file, s.csvFile = some file ∧ EndsWithCsvIgnoringCase file.name) :
    handleFormSubmit s = showError "Por favor selecciona un archivo CSV" s ∨
      handleFormSubmit s = showError "Por favor selecciona un archivo con extensión .csv" s := by
  unfold handleFormSubmit
  cases hf : s.csvFile with
  | none => left; rfl
  | some file =>
    right
    have hn : ¬ EndsWithCsvIgnoringCase file.name := fun hn => h ⟨file, hf, hn⟩
    have hb : endsWith (toLowerCase file.name) ".csv" = false := by
      cases hb : endsWith (toLowerCase file.name) ".csv" with
      | false => rfl
      | true => exact absurd ((endsWith_csv_iff file.name).mp hb) hn
    simp [hb]

/-! ## C1: validation at submit -/

/-- C1. On a submit event `handleFormSubmit` sends a request exactly when a
file is present whose name ends, case-insensitively, with `.csv`, and the
request is then the `/analyze` request for that file; otherwise it sends
nothing, and shows one of the two validation messages through `showError`. -/
theorem handleFormSubmit_analyze_iff (s : AppState) :
    ((∃ file, (handleFormSubmit s).requests = Request.analyze file :: s.requests) ↔
      ∃ file, s.csvFile = some file ∧ EndsWithCsvIgnoringCase file.name) ∧
    (∀ file, s.csvFile = some file → EndsWithCsvIgnoringCase file.name →
      handleFormSubmit s = analyzeData file s ∧
      (handleFormSubmit s).requests = Request.analyze file :: s.requests) ∧
    ((¬ ∃ file, s.csvFile = some file ∧ EndsWithCsvIgnoringCase file.name) →
      (handleFormSubmit s).requests = s.requests ∧
      (handleFormSubmit s).pendingAnalyze = s.pendingAnalyze ∧
      (handleFormSubmit s).errorHidden = false ∧
      (handleFormSubmit s = showError "Por favor selecciona un archivo CSV" s ∨
        handleFormSubmit s = showError "Por favor selecciona un archivo con extensión .csv" s)) := by
  have valid : ∀ file, s.csvFile = some file → EndsWithCsvIgnoringCase file.name →
      handleFormSubmit s = analyzeData file s ∧
      (handleFormSubmit s).requests = Request.analyze file :: s.requests := by
    intro file h hn
    have e := handleFormSubmit_valid s file h hn
    exact ⟨e, by rw [e, analyzeData_requests]⟩
  have invalid : (¬ ∃ file, s.csvFile = some file ∧ EndsWithCsvIgnoringCase file.name) →
      (handleFormSubmit s).requests = s.requests ∧
      (handleFormSubmit s).pendingAnalyze = s.pendingAnalyze ∧
      (handleFormSubmit s).errorHidden = false ∧
      (handleFormSubmit s = showError "Por favor selecciona un archivo CSV" s ∨
        handleFormSubmit s = showError "Por favor selecciona un archivo con extensión .csv" s) := by
    intro h
    have e := handleFormSubmit_invalid s h
    refine ⟨?_, ?_, ?_, e⟩ <;> rcases e with e | e <;> rw [e] <;> rfl
  refine ⟨⟨?_, ?_⟩, valid, invalid⟩
  · rintro ⟨file, hreq⟩
    by_contra hno
    have h := (invalid hno).1
    rw [h] at hreq
    have := congrArg List.length hreq
    simp at this
  · rintro ⟨file, h, hn⟩
    exact ⟨file, (valid file h hn).2⟩

/-- C1 at `data.txt`: no request, and the message about the extension. -/
theorem handleFormSubmit_analyze_iff_witness :
    (handleFormSubmit { AppState.initial with csvFile := some ⟨"data.txt", "a,b"⟩ }).requests = [] ∧
    (handleFormSubmit { AppState.initial with csvFile := some ⟨"data.txt", "a,b"⟩ }).errorHidden = false ∧
    (handleFormSubmit { AppState.initial with csvFile := some ⟨"data.txt", "a,b"⟩ }).errorMessage
      = "Por favor selecciona un archivo con extensión .csv" :=
  have h := (handleFormSubmit_analyze_iff { AppState.initial with csvFile := some ⟨"data.txt", "a,b"⟩ }).2.2
    (by
      rintro ⟨file, hf, hn⟩
      have hf2 : file = ⟨"data.txt", "a,b"⟩ := (Option.some.inj hf).symm
      subst hf2
      have hb := (endsWith_csv_iff "data.txt").mpr hn
      revert hb
      decide)
  ⟨h.1, h.2.2.1, by decide⟩

/-! ## C2, C4: the progress script against the clock -/

set_option maxRecDepth 16384

/-- A response that arrives after the simulator has started: the percentages
rise from the reset to the forced 100, which is on display when
`displayResults` is due. -/
theorem progress_late_response :
    percents (runSubmission ⟨"data.csv", "a,b"⟩ 2500 (.success AnalysisResult.empty) 3499) = [0, 10, 25, 40, 100] ∧
    displayedPercent (runSubmission ⟨"data.csv", "a,b"⟩ 2500 (.success AnalysisResult.empty) 3499) = some 100 ∧
    ((runSubmission ⟨"data.csv", "a,b"⟩ 2500 (.success AnalysisResult.empty) 3499).timers.map
      (fun t => (t.due, t.isShowResults))) = [(3500, true)] := by
  decide!

/-- C2 at a response that arrives 50 ms after the submit, before the reset
timer (100 ms) and the start timer (200 ms) have fired: `completeProgress`
shows 100 first, the reset then shows 0 and the simulator 10, so the sequence
100, 0, 10 is not non-decreasing and the percentage on display when
`displayResults` is due (at 1050 ms) is 10. At 150 ms, between the two
timers, the sequence is 0, 100, 10. -/
theorem progress_early_response :
    percents (runSubmission ⟨"data.csv", "a,b"⟩ 50 (.success AnalysisResult.empty) 1049) = [100, 0, 10] ∧
    ¬ (percents (runSubmission ⟨"data.csv", "a,b"⟩ 50 (.success AnalysisResult.empty) 1049)).Pairwise (· ≤ ·) ∧
    displayedPercent (runSubmission ⟨"data.csv", "a,b"⟩ 50 (.success AnalysisResult.empty) 1049) = some 10 ∧
    ((runSubmission ⟨"data.csv", "a,b"⟩ 50 (.success AnalysisResult.empty) 1049).timers.map
      (fun t => (t.due, t.isShowResults))) = [(1050, true), (1200, false)] ∧
    percents (runSubmission ⟨"data.csv", "a,b"⟩ 150 (.success AnalysisResult.empty) 1149) = [0, 100, 10] ∧
    displayedPercent (runSubmission ⟨"data.csv", "a,b"⟩ 150 (.success AnalysisResult.empty) 1149) = some 10 := by
  decide!

/-- Clearing an interval twice is clearing it once. -/
theorem clearInterval_idem (id : Nat) (s : AppState) :
    clearInterval id (clearInterval id s) = clearInterval id s := by
  simp [clearInterval, List.filter_filter]

/-- Clearing an interval makes no progress update. -/
theorem clearInterval_progressLog (id : Nat) (s : AppState) :
    (clearInterval id s).progressLog = s.progressLog := rfl

/-- A failure that arrives after the simulator has started: the `catch` block
clears the interval, and no update follows. -/
theorem cancel_late_failure :
    percents (runSubmission ⟨"data.csv", "a,b"⟩ 2500 .failure 2500) = [0, 10, 25, 40] ∧
    percents (runSubmission ⟨"data.csv", "a,b"⟩ 2500 .failure 9000) = [0, 10, 25, 40] ∧
    (runSubmission ⟨"data.csv", "a,b"⟩ 2500 .failure 9000).timers.length = 0 := by
  decide!

/-- C4 at a failure that arrives 50 ms after the submit: the `catch` block
finds no interval to clear and shows the error with no update made so far;
the reset timer and the start timer are still pending, and the whole script
0, 10, 25, 40, 60, 80, 95 runs afterwards, seven updates after the
cancellation. -/
theorem cancel_early_failure :
    percents (runSubmission ⟨"data.csv", "a,b"⟩ 50 .failure 50) = [] ∧
    (runSubmission ⟨"data.csv", "a,b"⟩ 50 .failure 50).errorHidden = false ∧
    (runSubmission ⟨"data.csv", "a,b"⟩ 50 .failure 50).timers.length = 2 ∧
    percents (runSubmission ⟨"data.csv", "a,b"⟩ 50 .failure 9000) = [0, 10, 25, 40, 60, 80, 95] ∧
    (percents (runSubmission ⟨"data.csv", "a,b"⟩ 50 .failure 9000)).length
      = (percents (runSubmission ⟨"data.csv", "a,b"⟩ 50 .failure 50)).length + 7 := by
  decide!

/-! ## C3: rendering a partial result -/

/-- The result `{}`: `displayDatasetInfo` is handed `undefined` and throws,
after the results area has been shown and before any section is written. -/
theorem displayResults_empty_throws (s : AppState) :
    ∃ t : Thrown, displayResults AnalysisResult.empty s = .error t ∧
      t.error = "TypeError: info is undefined" ∧ t.state.sections = s.sections ∧
      t.state.resultsHidden = false :=
  ⟨_, rfl, rfl, rfl, rfl⟩

/-- C3 at the result whose only field is an empty `basic_info`: no error is
raised, and the null-value, column-distribution and AI-insight containers are
not written at all, neither with content nor with a placeholder. -/
theorem displayResults_skips_sections :
    ∃ s : AppState,
      displayResults ⟨some BasicInfo.empty, none, none, none, none, none⟩ AppState.initial = .ok s ∧
      s.sections.nullValues = none ∧ s.sections.columnDistribution = none ∧
      s.sections.aiInsights = none :=
  ⟨_, rfl, rfl, rfl, rfl⟩

/-- C3 as amended. When `basic_info` is present, whatever else is absent,
`displayResults` raises no error; the dataset-info, statistics and
visualization containers always receive their content, which is the
placeholder when the statistics or all the plots are absent; each of the
null-value, column-distribution and AI-insight containers receives its
content when its field is present and is left as it was otherwise. -/
theorem displayResults_sections (results : AnalysisResult) (info : BasicInfo) (s : AppState)
    (h : results.basic_info = some info) :
    ∃ s2 : AppState, displayResults results s = .ok s2 ∧
      s2.sections.datasetInfo = some (datasetInfoHtml info) ∧
      s2.sections.basicStats = some (basicStatsHtml results.statistical_summary) ∧
      s2.sections.visualizations = some (visualizationsHtml results) ∧
      (results.statistical_summary = none → s2.sections.basicStats = some noStatsHtml) ∧
      (results.correlation_heatmap = none → results.histograms = none → results.boxplots = none →
        s2.sections.visualizations = some
          "<div class=\"info-box\"><h4>📊 Visualizaciones</h4><p>No se generaron visualizaciones para este dataset.</p></div>") ∧
      s2.sections.nullValues =
        (match info.null_values with
          | some nullValues => some (nullValuesHtml (some nullValues))
          | none => s.sections.nullValues) ∧
      s2.sections.columnDistribution =
        (match info.data_types with
          | some dataTypes => some (columnDistributionHtml (some dataTypes))
          | none => s.sections.columnDistribution) ∧
      s2.sections.aiInsights =
        (match results.ai_insights with
          | some insights => some (aiInsightsHtml (some insights))
          | none => s.sections.aiInsights) := by
  obtain ⟨basic_info, stats, heatmap, histograms, boxplots, insights⟩ := results
  simp only at h
  subst h
  refine ⟨_, rfl, ?_⟩
  cases hn : info.null_values <;> cases hd : info.data_types <;> cases insights <;>
    simp [displayDatasetInfo, displayBasicStats, displayNullValues, displayColumnDistribution,
      displayVisualizations, displayAIInsights, hideAllSections, hn, hd] <;>
    refine ⟨?_, ?_⟩ <;> intros <;> subst_vars <;> rfl

/-- C3 as amended, at the result whose only field is an empty `basic_info`. -/
theorem displayResults_sections_witness :
    ∃ s2 : AppState,
      displayResults ⟨some BasicInfo.empty, none, none, none, none, none⟩ AppState.initial = .ok s2 ∧
      s2.sections.datasetInfo = some (datasetInfoHtml BasicInfo.empty) ∧
      s2.sections.basicStats = some noStatsHtml :=
  have ⟨s2, h1, h2, _, _, h5, _⟩ :=
    displayResults_sections ⟨some BasicInfo.empty, none, none, none, none, none⟩ BasicInfo.empty
      AppState.initial rfl
  ⟨s2, h1, h2, h5 rfl⟩

/-! ## C7, C8: the PDF export -/

/-- C7. With no result cached, or no file name, `handleDownloadPDF` sends
nothing, shows the message that there is nothing to download, and leaves the
cached result, the cached name and the download button as they were. -/
theorem handleDownloadPDF_nothing_cached (s : AppState)
    (h : s.lastAnalysisResults = none ∨ truthyStr s.lastFileName = false) :
    handleDownloadPDF s = showError "No hay resultados de análisis disponibles para descargar." s ∧
    (handleDownloadPDF s).requests = s.requests ∧
    (handleDownloadPDF s).pendingPdf = s.pendingPdf ∧
    (handleDownloadPDF s).downloads = s.downloads ∧
    (handleDownloadPDF s).errorHidden = false ∧
    (handleDownloadPDF s).errorMessage = "No hay resultados de análisis disponibles para descargar." ∧
    (handleDownloadPDF s).lastAnalysisResults = s.lastAnalysisResults ∧
    (handleDownloadPDF s).lastFileName = s.lastFileName ∧
    (handleDownloadPDF s).downloadBtnHtml = s.downloadBtnHtml ∧
    (handleDownloadPDF s).downloadBtnDisabled = s.downloadBtnDisabled := by
  have e : handleDownloadPDF s = showError "No hay resultados de análisis disponibles para descargar." s := by
    unfold handleDownloadPDF
    cases hr : s.lastAnalysisResults with
    | none => rfl
    | some results =>
      cases hf : s.lastFileName with
      | none => rfl
      | some filename =>
        rcases h with h | h
        · rw [hr] at h; cases h
        · rw [hf] at h
          simp only [truthyStr] at h
          simp [h]
  rw [e]
  exact ⟨rfl, rfl, rfl, rfl, rfl, rfl, rfl, rfl, rfl, rfl⟩

/-- C7 on the page as loaded, where nothing is cached. -/
theorem handleDownloadPDF_nothing_cached_witness :
    (handleDownloadPDF AppState.initial).requests = [] ∧
    (handleDownloadPDF AppState.initial).errorMessage
      = "No hay resultados de análisis disponibles para descargar." :=
  have h := handleDownloadPDF_nothing_cached AppState.initial (Or.inl rfl)
  ⟨h.2.1, h.2.2.2.2.2.1⟩

/-- Cutting the first occurrence of `pat` out of `stem ++ pat` leaves `stem`
when `pat` occurs nowhere earlier. -/
theorem removeFirst_append (pat stem : List Char)
    (h : ∀ k, k < stem.length → pat.isPrefixOf ((stem ++ pat).drop k) = false) :
    removeFirst pat (stem ++ pat) = stem := by
  induction stem with
  | nil =>
    cases pat with
    | nil => rfl
    | cons c cs => simp [removeFirst]
  | cons c stem ih =>
    have h0 := h 0 (by simp)
    simp only [List.drop_zero] at h0
    simp only [List.cons_append] at h0 ⊢
    simp only [removeFirst, h0]
    simp only [Bool.false_eq_true, if_false, List.cons.injEq, true_and]
    apply ih
    intro k hk
    have := h (k + 1) (by simp; omega)
    simpa using this

/-- The download name is the one of the claim C8 when the name ends in a
lower-case `.csv` that is the first occurrence of `.csv` in it, and the date
part holds no `T`. -/
theorem downloadName_lowercase (stem date time : String)
    (h : ∀ k, k < stem.data.length → ".csv".data.isPrefixOf ((stem.data ++ ".csv".data).drop k) = false)
    (hd : 'T' ∉ date.data) :
    downloadName (stem ++ ".csv") (date ++ "T" ++ time) = "analisis_" ++ stem ++ "_" ++ date ++ ".pdf" := by
  have e1 : replaceFirstWithEmpty (stem ++ ".csv") ".csv" = stem := by
    unfold replaceFirstWithEmpty
    rw [String.data_append, removeFirst_append _ _ h]
  have e2 : splitHead (date ++ "T" ++ time) 'T' = date := by
    unfold splitHead
    have e3 : (date ++ "T" ++ time).data = date.data ++ ('T' :: time.data) := by
      simp [String.data_append]
    rw [e3, List.takeWhile_append_of_pos]
    · simp
    · intro c hc
      have : c ≠ 'T' := fun hcT => hd (hcT ▸ hc)
      simpa using this
  unfold downloadName
  rw [e1, e2]

/-- C8 at the cached name `DATA.CSV`, which passes the validation of
`handleFormSubmit`: the replacement is case-sensitive, so the extension stays
in the download name. At `x.csvy.csv` the first occurrence of `.csv` is
removed, not the trailing one. -/
theorem downloadName_keeps_extension :
    endsWith (toLowerCase "DATA.CSV") ".csv" = true ∧
    downloadName "DATA.CSV" "2024-05-06T10:11:12.123Z" = "analisis_DATA.CSV_2024-05-06.pdf" ∧
    downloadName "DATA.CSV" "2024-05-06T10:11:12.123Z" ≠ "analisis_" ++ "DATA" ++ "_" ++ "2024-05-06" ++ ".pdf" ∧
    endsWith (toLowerCase "x.csvy.csv") ".csv" = true ∧
    downloadName "x.csvy.csv" "2024-05-06T10:11:12.123Z" = "analisis_xy.csv_2024-05-06.pdf" ∧
    downloadName "x.csvy.csv" "2024-05-06T10:11:12.123Z" ≠ "analisis_" ++ "x.csvy" ++ "_" ++ "2024-05-06" ++ ".pdf" := by
  decide

/-! ## C9: the AI insights -/

theorem join_cons (a : String) (l : List String) : String.join (a :: l) = a ++ String.join l := by
  have h : ∀ (l : List String) (init : String),
      l.foldl (fun r s => r ++ s) init = init ++ l.foldl (fun r s => r ++ s) "" := by
    intro l
    induction l with
    | nil => intro init; simp
    | cons b l ih =>
      intro init
      simp only [List.foldl_cons]
      rw [ih (init ++ b), ih ("" ++ b)]
      simp [String.append_assoc]
  simp only [String.join, List.foldl_cons]
  rw [h l ("" ++ a)]
  simp

theorem foldl_append_join {α : Type} (f : α → String) (l : List α) (init : String) :
    l.foldl (fun html a => html ++ f a) init = init ++ String.join (l.map f) := by
  induction l generalizing init with
  | nil => simp [String.join]
  | cons a l ih =>
    simp only [List.foldl_cons, List.map_cons]
    rw [ih, join_cons, String.append_assoc]

/-- The definition of `displayAIInsights` in effect writes one item per
element of a non-empty list, holding the interpolation of the element. -/
theorem aiInsightsHtml_items (insights : List Insight) (h : insights ≠ []) :
    aiInsightsHtml (some insights) =
      "<div class=\"info-box\"><h4>🤖 Insights de IA</h4><div class=\"insights-list\">"
      ++ String.join (insights.map (fun i => "<div class=\"insight-item\">" ++ insightText i ++ "</div>"))
      ++ "</div></div>" := by
  have hl : (insights.length == 0) = false := by
    cases insights with
    | nil => exact absurd rfl h
    | cons a l => rfl
  simp only [aiInsightsHtml, hl]
  rw [foldl_append_join]
  rfl

/-- C9 at a list of one structured insight: the definition in effect
interpolates the object itself, so the one item reads `[object Object]`, and
neither the title nor the description nor the recommendation occurs in what
is written; the overridden first definition shows the three. -/
theorem aiInsights_structured :
    aiInsightsHtml (some [.structured "Nulos" "La columna b tiene nulos" (some "Imputar")]) =
      "<div class=\"info-box\"><h4>🤖 Insights de IA</h4><div class=\"insights-list\"><div class=\"insight-item\">[object Object]</div></div></div>" ∧
    ¬ ("Nulos".data <:+:
      (aiInsightsHtml (some [.structured "Nulos" "La columna b tiene nulos" (some "Imputar")])).data) ∧
    ¬ ("La columna b tiene nulos".data <:+:
      (aiInsightsHtml (some [.structured "Nulos" "La columna b tiene nulos" (some "Imputar")])).data) ∧
    ¬ ("Imputar".data <:+:
      (aiInsightsHtml (some [.structured "Nulos" "La columna b tiene nulos" (some "Imputar")])).data) ∧
    aiInsightsHtmlOverridden (some [.structured "Nulos" "La columna b tiene nulos" (some "Imputar")]) =
      "<div class=\"info-box\"><h4>🤖 Análisis Automático</h4><div class=\"insight-item\"><h5>Nulos</h5><p>La columna b tiene nulos</p><p><strong>Recomendación:</strong> Imputar</p></div></div>" := by
  decide!

/-- C9 as amended. For a non-empty list the definition of `displayAIInsights`
in effect writes one item per element, in order: the string itself for a
string element, and for an object element the text `[object Object]` of its
conversion to a string, not its title, description or recommendation. -/
theorem displayAIInsights_items (insights : List Insight) (h : insights ≠ []) (s : AppState) :
    (displayAIInsights (some insights) s).sections.aiInsights = some
      ("<div class=\"info-box\"><h4>🤖 Insights de IA</h4><div class=\"insights-list\">"
      ++ String.join (insights.map (fun i =>
          "<div class=\"insight-item\">"
          ++ (match i with
              | .text t => t
              | .structured _ _ _ => "[object Object]")
          ++ "</div>"))
      ++ "</div></div>") := by
  have e : (fun i : Insight => "<div class=\"insight-item\">" ++ insightText i ++ "</div>")
      = (fun i : Insight => "<div class=\"insight-item\">"
          ++ (match i with
              | .text t => t
              | .structured _ _ _ => "[object Object]")
          ++ "</div>") := by
    funext i
    cases i <;> rfl
  simp only [displayAIInsights, aiInsightsHtml_items insights h, e]

/-- C9 as amended, at a list of a string and a structured insight. -/
theorem displayAIInsights_items_witness :
    (displayAIInsights (some [.text "Sin nulos", .structured "Nulos" "La columna b tiene nulos" none])
      AppState.initial).sections.aiInsights = some
      "<div class=\"info-box\"><h4>🤖 Insights de IA</h4><div class=\"insights-list\"><div class=\"insight-item\">Sin nulos</div><div class=\"insight-item\">[object Object]</div></div></div>" :=
  (displayAIInsights_items [.text "Sin nulos", .structured "Nulos" "La columna b tiene nulos" none]
    (List.cons_ne_nil _ _) AppState.initial).trans (by decide)

/-! ## Lemmas on double arithmetic -/

theorem bitLength_zero (fuel : Nat) : bitLength fuel 0 = 0 := by
  cases fuel <;> simp [bitLength]

/-- For `0 < n` the bit length `b` of `n` gives `2 ^ (b - 1) ≤ n < 2 ^ b`. -/
theorem bitLength_spec (fuel n : Nat) (h : n ≤ fuel) (hn : 0 < n) :
    0 < bitLength fuel n ∧ 2 ^ (bitLength fuel n - 1) ≤ n ∧ n < 2 ^ bitLength fuel n := by
  induction fuel generalizing n with
  | zero => omega
  | succ fuel ih =>
    have hne : n ≠ 0 := by omega
    simp only [bitLength, hne, if_false]
    by_cases h2 : n / 2 = 0
    · rw [h2, bitLength_zero]
      have : n = 1 := by omega
      subst this
      simp
    · obtain ⟨hb, hlo, hhi⟩ := ih (n / 2) (by omega) (by omega)
      refine ⟨by omega, ?_, ?_⟩
      · simp only [Nat.add_sub_cancel]
        obtain ⟨b, hb2⟩ : ∃ b, bitLength fuel (n / 2) = b + 1 := ⟨bitLength fuel (n / 2) - 1, by omega⟩
        rw [hb2] at hlo ⊢
        simp only [Nat.add_sub_cancel] at hlo
        rw [pow_succ]
        omega
      · rw [pow_succ]
        omega

theorem roundHalfEven_near (m : ℚ) : |(roundHalfEven m : ℚ) - m| ≤ 1 / 2 := by
  have h1 := Int.floor_le m
  have h2 := Int.lt_floor_add_one m
  unfold roundHalfEven
  rw [abs_le]
  simp only
  split_ifs <;> push_cast <;> constructor <;> linarith

/-- The binary exponent found for `x > 0` is not above `x`. -/
theorem binade_le (x : ℚ) (hx : 0 < x) : (2 : ℚ) ^ binade x ≤ x := by
  unfold binade
  simp only
  split_ifs with hc
  · exact hc
  · have hnum : 0 < x.num := Rat.num_pos.mpr hx
    have hp : 0 < x.num.toNat := by omega
    have hq : 0 < x.den := x.den_pos
    obtain ⟨hbp, hlo, -⟩ := bitLength_spec x.num.toNat x.num.toNat (le_refl _) hp
    obtain ⟨hbq, -, hhi⟩ := bitLength_spec x.den x.den (le_refl _) hq
    have hxe : x = (x.num.toNat : ℚ) / (x.den : ℚ) := by
      have h1 : ((x.num.toNat : ℤ) : ℚ) = (x.num : ℚ) := by
        rw [Int.toNat_of_nonneg (le_of_lt hnum)]
      have h2 : ((x.num.toNat : ℕ) : ℚ) = ((x.num.toNat : ℤ) : ℚ) := by push_cast; rfl
      rw [h2, h1]
      exact (Rat.num_div_den x).symm
    have he : ((bitLength x.num.toNat x.num.toNat : ℤ) - (bitLength x.den x.den : ℤ) - 1)
        = ((bitLength x.num.toNat x.num.toNat - 1 : ℕ) : ℤ) - ((bitLength x.den x.den : ℕ) : ℤ) := by
      omega
    rw [he, zpow_sub₀ (by norm_num : (2 : ℚ) ≠ 0), zpow_natCast, zpow_natCast]
    have hlo2 : ((2 : ℚ) ^ (bitLength x.num.toNat x.num.toNat - 1)) ≤ (x.num.toNat : ℚ) := by
      exact_mod_cast hlo
    have hhi2 : (x.den : ℚ) ≤ (2 : ℚ) ^ (bitLength x.den x.den) := by
      exact_mod_cast le_of_lt hhi
    calc (2 : ℚ) ^ (bitLength x.num.toNat x.num.toNat - 1) / (2 : ℚ) ^ (bitLength x.den x.den)
        ≤ (x.num.toNat : ℚ) / (x.den : ℚ) := by
          have hq2 : (0 : ℚ) < (x.den : ℚ) := by exact_mod_cast hq
          have hp2 : (0 : ℚ) ≤ (x.num.toNat : ℚ) := by positivity
          rw [div_le_div_iff₀ (by positivity) hq2]
          calc (2 : ℚ) ^ (bitLength x.num.toNat x.num.toNat - 1) * (x.den : ℚ)
              ≤ (x.num.toNat : ℚ) * (x.den : ℚ) := by
                exact mul_le_mul_of_nonneg_right hlo2 (le_of_lt hq2)
            _ ≤ (x.num.toNat : ℚ) * (2 : ℚ) ^ (bitLength x.den x.den) := by
                exact mul_le_mul_of_nonneg_left hhi2 hp2
      _ = x := hxe.symm


/-- Rounding `x > 0` to a double moves it by at most half a unit in the last
place, which is at most `x / 2 ^ 53`. -/
theorem roundDouble_near (x : ℚ) (hx : 0 < x) :
    |roundDouble x - x| ≤ x / 9007199254740992 := by
  have hne : x ≠ 0 := ne_of_gt hx
  have h2 : (2 : ℚ) ≠ 0 := by norm_num
  simp only [roundDouble, hne, hx, if_false, if_true]
  unfold roundPos
  have hb := binade_le x hx
  have hr := roundHalfEven_near (x * (2 : ℚ) ^ (52 - binade x))
  have hpos : (0 : ℚ) < (2 : ℚ) ^ (binade x - 52) := zpow_pos (by norm_num) _
  have hone : (2 : ℚ) ^ (52 - binade x) * (2 : ℚ) ^ (binade x - 52) = 1 := by
    rw [← zpow_add₀ h2]
    simp
  have hx2 : x = x * (2 : ℚ) ^ (52 - binade x) * (2 : ℚ) ^ (binade x - 52) := by
    rw [mul_assoc, hone, mul_one]
  have hdiff : (roundHalfEven (x * (2 : ℚ) ^ (52 - binade x)) : ℚ) * (2 : ℚ) ^ (binade x - 52) - x
      = ((roundHalfEven (x * (2 : ℚ) ^ (52 - binade x)) : ℚ) - x * (2 : ℚ) ^ (52 - binade x))
          * (2 : ℚ) ^ (binade x - 52) := by
    rw [sub_mul, ← hx2]
  rw [hdiff, abs_mul, abs_of_pos hpos]
  have hsplit : (2 : ℚ) ^ (binade x - 52) = (2 : ℚ) ^ binade x / 4503599627370496 := by
    rw [zpow_sub₀ h2]
    norm_num
  calc |(roundHalfEven (x * (2 : ℚ) ^ (52 - binade x)) : ℚ) - x * (2 : ℚ) ^ (52 - binade x)|
        * (2 : ℚ) ^ (binade x - 52)
      ≤ 1 / 2 * (2 : ℚ) ^ (binade x - 52) := mul_le_mul_of_nonneg_right hr (le_of_lt hpos)
    _ = (2 : ℚ) ^ binade x / 9007199254740992 := by rw [hsplit]; ring
    _ ≤ x / 9007199254740992 := by
        apply div_le_div_of_nonneg_right hb
        norm_num

/-- For a count below `10 ^ 13` the doubles `count / 100` and then `* 100`
end less than half a hundredth away from the count. -/
theorem fmul_fdiv_near (n : Nat) (hn : 0 < n) (hb : n < 10 ^ 13) :
    (n : ℚ) - 1 / 200 ≤ fmul (fdiv (n : ℚ) 100) 100 ∧
    fmul (fdiv (n : ℚ) 100) 100 < (n : ℚ) + 1 / 200 := by
  have hn2 : (0 : ℚ) < (n : ℚ) := by exact_mod_cast hn
  have hb2 : (n : ℚ) < 10000000000000 := by exact_mod_cast hb
  have ha : (0 : ℚ) < (n : ℚ) / 100 := by positivity
  have h1 := roundDouble_near ((n : ℚ) / 100) ha
  rw [abs_le] at h1
  have hy : (0 : ℚ) < fdiv (n : ℚ) 100 := by
    unfold fdiv
    linarith [h1.1]
  have hy100 : (0 : ℚ) < fdiv (n : ℚ) 100 * 100 := by positivity
  have h2 := roundDouble_near (fdiv (n : ℚ) 100 * 100) hy100
  rw [abs_le] at h2
  unfold fmul
  unfold fdiv at h2 hy ⊢
  constructor
  · linarith [h1.1, h1.2, h2.1, h2.2]
  · linarith [h1.1, h1.2, h2.1, h2.2]

/-- The percentages of `displayColumnDistribution` are rounded from the
double: 23 of 80 columns is 28.749999999999996 and prints as `28.7`. -/
theorem toFixed1_of_double :
    fmul (fdiv 23 80) 100 < 115 / 4 ∧
    toFixed1 (fmul (fdiv 23 80) 100) = "28.7" ∧
    toFixed1 (fmul (fdiv 2 3) 100) = "66.7" ∧
    toFixed1 (fmul (fdiv 1 2) 100) = "50.0" := by
  decide!

/-- A column missing from `non_null_counts` reads `N/A`, unless its name is
found on `Object.prototype`. -/
theorem nonNullText_samples :
    nonNullText [("a", 3), ("b", 0)] "a" = "3" ∧
    nonNullText [("a", 3), ("b", 0)] "b" = "N/A" ∧
    nonNullText [("a", 3), ("b", 0)] "c" = "N/A" ∧
    nonNullText [("a", 3), ("b", 0)] "constructor" = "function Object() \x7b [native code] \x7d" := by
  decide

/-! ## C10: the null-value summary -/

/-- Any value less than half a hundredth away from `n` prints as `n`
followed by `.00`. -/
theorem toFixed2_near (x : ℚ) (n : Nat) (h1 : (n : ℚ) - 1 / 200 ≤ x) (h2 : x < (n : ℚ) + 1 / 200) :
    toFixed2 x = toString n ++ ".00" := by
  have hf : Int.floor (x * 100 + 1 / 2) = ((n * 100 : Nat) : Int) := by
    rw [Int.floor_eq_iff]
    constructor
    · push_cast; linarith
    · push_cast; linarith
  unfold toFixed2
  simp only [hf, Int.toNat_ofNat]
  have h1 : n * 100 / 100 = n := by omega
  have h2 : n * 100 % 100 = 0 := by omega
  rw [h1, h2]
  have h3 : pad2 0 = "00" := by decide
  rw [h3, String.append_assoc]
  rfl

/-- For a count below `10 ^ 13` the percentage cell is the count followed by
`.00`. -/
theorem nullPercentage_eq (count : Nat) (hb : count < 10 ^ 13) :
    nullPercentage count = toString count ++ ".00" := by
  unfold nullPercentage
  split
  · rename_i hpos
    obtain ⟨h1, h2⟩ := fmul_fdiv_near count hpos hb
    exact toFixed2_near _ count h1 h2
  · have h : count = 0 := by omega
    subst h
    decide

theorem hasNulls_eq_false_iff (nullValues : List (String × Nat)) :
    hasNulls nullValues = false ↔ ∀ e ∈ nullValues, e.2 = 0 := by
  unfold hasNulls
  rw [List.any_eq_false]
  simp only [List.mem_map, decide_eq_true_eq, forall_exists_index, and_imp]
  constructor
  · intro h e he
    have := h e.2 e he rfl
    omega
  · intro h x e he hx
    have := h e he
    omega

/-- C10 at the count 55023354356768: the double `count / 100` times 100 is
55023354356768.0078125, so the percentage shown is `55023354356768.01`, not
the count with `.00`. -/
theorem nullPercentage_large_count :
    hasNulls [("a", 55023354356768)] = true ∧
    fmul (fdiv 55023354356768 100) 100 = 55023354356768 + 1 / 128 ∧
    nullPercentage 55023354356768 = "55023354356768.01" ∧
    nullPercentage 55023354356768 ≠ toString 55023354356768 ++ ".00" ∧
    nullValuesHtml (some [("a", 55023354356768)]) =
      "<div class=\"warning-box\"><h4>🔍 Resumen de Valores Nulos</h4><p>⚠️ Se encontraron valores nulos en el dataset:</p></div><table><thead><tr><th>Columna</th><th>Valores Nulos</th><th>Porcentaje</th></tr></thead><tbody><tr><td>a</td><td>55023354356768</td><td>55023354356768.01%</td></tr></tbody></table>" := by
  decide!

/-- C10 as amended. `displayNullValues` reports a clean dataset exactly when
every count is zero and one with nulls otherwise; in the second case, when
every count is below `10 ^ 13`, the table has one row per column, in order,
with the column, the count, and the count with two decimals as the percentage
(`0.00` for a zero count); for the counts `a: 0, b: 10` it reports nulls, with
`10.00` for `b`. -/
theorem displayNullValues_summary (nullValues : List (String × Nat)) :
    (hasNulls nullValues = false ↔ ∀ e ∈ nullValues, e.2 = 0) ∧
    (hasNulls nullValues = false →
      nullValuesHtml (some nullValues) =
        "<div class=\"success-box\"><h4>🔍 Resumen de Valores Nulos</h4><p>✅ ¡Excelente! No se encontraron valores nulos en el dataset.</p></div>") ∧
    ((∀ e ∈ nullValues, e.2 < 10 ^ 13) → hasNulls nullValues = true →
      nullValuesHtml (some nullValues) =
        "<div class=\"warning-box\"><h4>🔍 Resumen de Valores Nulos</h4><p>⚠️ Se encontraron valores nulos en el dataset:</p></div>"
        ++ ("<table><thead><tr><th>Columna</th><th>Valores Nulos</th><th>Porcentaje</th></tr></thead><tbody>"
        ++ String.join (nullValues.map (fun e =>
            "<tr><td>" ++ e.1 ++ "</td><td>" ++ toString e.2 ++ "</td><td>" ++ (toString e.2 ++ ".00") ++ "%</td></tr>"))
        ++ "</tbody></table>")) ∧
    (∀ count : Nat, count < 10 ^ 13 → nullPercentage count = toString count ++ ".00") ∧
    nullPercentage 0 = "0.00" ∧
    hasNulls [("a", 0), ("b", 10)] = true ∧
    nullPercentage 10 = "10.00" ∧
    (∀ s : AppState, (displayNullValues (some nullValues) s).sections.nullValues
      = some (nullValuesHtml (some nullValues))) := by
  refine ⟨hasNulls_eq_false_iff nullValues, ?_, ?_, nullPercentage_eq, by decide, by decide, ?_,
    fun _ => rfl⟩
  · intro h
    simp only [nullValuesHtml, h]
    rfl
  · intro hb h
    simp only [nullValuesHtml, h, if_true, nullTableHtml]
    have e : nullValues.map nullRowHtml = nullValues.map (fun e : String × Nat =>
        "<tr><td>" ++ e.1 ++ "</td><td>" ++ toString e.2 ++ "</td><td>" ++ (toString e.2 ++ ".00") ++ "%</td></tr>") := by
      apply List.map_congr_left
      intro e he
      simp only [nullRowHtml, nullPercentage_eq e.2 (hb e he)]
    rw [e]
    rfl
  · rw [nullPercentage_eq 10 (by norm_num)]; decide

/-- C10 as amended, at the counts `a: 0, b: 10`. -/
theorem displayNullValues_summary_witness :
    hasNulls [("a", 0), ("b", 10)] = true ∧
    nullValuesHtml (some [("a", 0), ("b", 10)]) =
      "<div class=\"warning-box\"><h4>🔍 Resumen de Valores Nulos</h4><p>⚠️ Se encontraron valores nulos en el dataset:</p></div><table><thead><tr><th>Columna</th><th>Valores Nulos</th><th>Porcentaje</th></tr></thead><tbody><tr><td>a</td><td>0</td><td>0.00%</td></tr><tr><td>b</td><td>10</td><td>10.00%</td></tr></tbody></table>" :=
  ⟨by decide,
   ((displayNullValues_summary [("a", 0), ("b", 10)]).2.2.1
      (by intro e he; simp at he; rcases he with rfl | rfl <;> norm_num) (by decide)).trans (by decide)⟩

/-! ## C6: one area on display at most -/

theorem hiddenFlags_showError (m : String) (s : AppState) :
    hiddenFlags (showError m s) = (true, true, false) := rfl

theorem hiddenFlags_showLoading (fileName : String) (s : AppState) :
    hiddenFlags (showLoading fileName s) = (false, true, true) := by
  simp only [showLoading, setTimer, hideAllSections, hiddenFlags]
  split <;> rfl

theorem hiddenFlags_hideAllSections (s : AppState) :
    hiddenFlags (hideAllSections s) = (true, true, true) := rfl

theorem hiddenFlags_analyzeData (file : SelectedFile) (s : AppState) :
    hiddenFlags (analyzeData file s) = (false, true, true) := by
  have h := hiddenFlags_showLoading file.name s
  simp only [hiddenFlags, analyzeData, setTimer] at h ⊢
  exact h

theorem hiddenFlags_completeProgress (s : AppState) :
    hiddenFlags (completeProgress s) = hiddenFlags s := by
  simp only [completeProgress, setTimer, updateProgress, hiddenFlags]
  split <;> rfl

theorem hiddenFlags_progressTick (id k : Nat) (s : AppState) :
    hiddenFlags (progressTick id k s) = hiddenFlags s := by
  simp only [progressTick]
  split <;> rfl

/-- Whether it returns or throws, `displayResults` leaves the results area
alone on display, and touches neither the timers nor the requests in
flight. -/
theorem displayResults_cases (results : AnalysisResult) (s : AppState) :
    (∃ s2, displayResults results s = .ok s2 ∧ hiddenFlags s2 = (true, false, true) ∧
      s2.timers = s.timers ∧ s2.pendingAnalyze = s.pendingAnalyze) ∨
    (∃ t, displayResults results s = .error t ∧ hiddenFlags t.state = (true, false, true) ∧
      t.state.timers = s.timers ∧ t.state.pendingAnalyze = s.pendingAnalyze) := by
  obtain ⟨basic_info, stats, heatmap, histograms, boxplots, insights⟩ := results
  cases basic_info with
  | none => exact Or.inr ⟨_, rfl, rfl, rfl, rfl⟩
  | some info =>
    refine Or.inl ⟨_, rfl, ?_⟩
    cases hn : info.null_values <;> cases hd : info.data_types <;> cases insights <;>
      simp [displayDatasetInfo, displayBasicStats, displayNullValues, displayColumnDistribution,
        displayVisualizations, displayAIInsights, hideAllSections, hiddenFlags, hn, hd]

theorem visibleCount_of_flags (s : AppState) (a b c : Bool) (h : hiddenFlags s = (a, b, c))
    (hc : (if a then 0 else 1) + (if b then 0 else 1) + (if c then 0 else 1) ≤ 1) :
    visibleCount s ≤ 1 := by
  simp only [hiddenFlags, Prod.mk.injEq] at h
  obtain ⟨h1, h2, h3⟩ := h
  simp only [visibleCount, h1, h2, h3]
  exact hc

theorem visibleCount_congr (s t : AppState) (h : hiddenFlags t = hiddenFlags s)
    (hs : visibleCount s ≤ 1) : visibleCount t ≤ 1 := by
  simp only [hiddenFlags, Prod.mk.injEq] at h
  obtain ⟨h1, h2, h3⟩ := h
  simp only [visibleCount, h1, h2, h3] at hs ⊢
  exact hs

theorem visibleCount_fireTimer (t : Timer) (s : AppState) (hs : visibleCount s ≤ 1) :
    visibleCount (fireTimer t s) ≤ 1 := by
  unfold fireTimer
  cases hk : t.kind with
  | resetProgress => exact visibleCount_congr s _ rfl hs
  | startSimulation => exact visibleCount_congr s _ rfl hs
  | hideSections => exact visibleCount_of_flags _ _ _ _ (hiddenFlags_hideAllSections _) (by decide)
  | progressTick k =>
    simp only
    exact visibleCount_congr s _ (by rw [hiddenFlags_progressTick]; rfl) hs
  | showResults results =>
    simp only
    rcases displayResults_cases results (clearInterval t.id { s with now := max s.now t.due }) with
      ⟨s2, h1, h2, -, -⟩ | ⟨th, h1, -, -, -⟩
    · rw [h1]
      exact visibleCount_of_flags _ _ _ _ h2 (by decide)
    · rw [h1]
      exact visibleCount_of_flags _ _ _ _ (hiddenFlags_showError _ _) (by decide)

theorem visibleCount_step (e : Event) (s s2 : AppState) (h : step e s = some s2)
    (hs : visibleCount s ≤ 1) : visibleCount s2 ≤ 1 := by
  cases e with
  | fileSelect file =>
    simp only [step, Option.some.injEq] at h
    subst h
    refine visibleCount_congr s _ ?_ hs
    cases file <;> rfl
  | submit =>
    simp only [step] at h
    split at h
    · cases h
    · simp only [Option.some.injEq] at h
      subst h
      unfold handleFormSubmit
      split
      · exact visibleCount_of_flags _ _ _ _ (hiddenFlags_showError _ _) (by decide)
      · split
        · exact visibleCount_of_flags _ _ _ _ (hiddenFlags_showError _ _) (by decide)
        · exact visibleCount_of_flags _ _ _ _ (hiddenFlags_analyzeData _ _) (by decide)
  | analyzeSettled i outcome =>
    simp only [step] at h
    split at h
    · simp only [Option.some.injEq] at h
      subst h
      unfold settleAnalyze
      split
      · cases outcome with
        | success results =>
          refine visibleCount_congr s _ ?_ hs
          simp only [analyzeDataSuccess, setTimer, hiddenFlags]
          have := hiddenFlags_completeProgress { s with pendingAnalyze := s.pendingAnalyze.eraseIdx i }
          simp only [hiddenFlags] at this
          exact this
        | failure =>
          simp only [analyzeDataFailure]
          exact visibleCount_of_flags _ _ _ _ (hiddenFlags_showError _ _) (by decide)
      · exact hs
    · cases h
  | timer id =>
    simp only [step] at h
    split at h
    · simp only [Option.some.injEq] at h
      subst h
      exact visibleCount_fireTimer _ _ hs
    · cases h
  | downloadClick =>
    simp only [step, Option.some.injEq] at h
    subst h
    unfold handleDownloadPDF
    split
    · split
      · exact visibleCount_congr s _ rfl hs
      · exact visibleCount_of_flags _ _ _ _ (hiddenFlags_showError _ _) (by decide)
    · exact visibleCount_of_flags _ _ _ _ (hiddenFlags_showError _ _) (by decide)
  | pdfOk i iso =>
    simp only [step] at h
    split at h
    · simp only [Option.some.injEq] at h
      subst h
      unfold handleDownloadPDFSuccess
      split
      · exact visibleCount_congr s _ rfl hs
      · exact visibleCount_of_flags _ true true false rfl (by decide)
    · cases h
  | pdfFail i =>
    simp only [step] at h
    split at h
    · simp only [Option.some.injEq] at h
      subst h
      exact visibleCount_of_flags _ true true false rfl (by decide)
    · cases h
  | healthFail =>
    simp only [step, Option.some.injEq] at h
    subst h
    exact visibleCount_of_flags _ true true false rfl (by decide)
  | globalError =>
    simp only [step, Option.some.injEq] at h
    subst h
    exact visibleCount_of_flags _ true true false rfl (by decide)

theorem visibleCount_runEvents (events : List Event) (s s2 : AppState)
    (h : runEvents events s = some s2) (hs : visibleCount s ≤ 1) : visibleCount s2 ≤ 1 := by
  induction events generalizing s with
  | nil =>
    simp only [runEvents, Option.some.injEq] at h
    subst h
    exact hs
  | cons e es ih =>
    simp only [runEvents] at h
    cases hstep : step e s with
    | none => rw [hstep] at h; cases h
    | some s1 =>
      rw [hstep] at h
      exact ih s1 h (visibleCount_step e s s1 hstep hs)

/-- C6. In every state reached from `initializeApp` by any sequence of
events, at most one of the loading, results and error areas is on display;
and `showLoading`, `showError`, `displayResults` and the delayed hide of
`completeProgress` each leave exactly their own area (none for the hide) on
display, whatever was shown before. -/
theorem at_most_one_area_visible (s0 : AppState) (events : List Event) (s : AppState)
    (h : runEvents events (initializeApp s0) = some s) :
    visibleCount s ≤ 1 ∧
    (∀ (fileName : String) (s1 : AppState), hiddenFlags (showLoading fileName s1) = (false, true, true)) ∧
    (∀ (m : String) (s1 : AppState), hiddenFlags (showError m s1) = (true, true, false)) ∧
    (∀ (results : AnalysisResult) (s1 s2 : AppState), displayResults results s1 = .ok s2 →
      hiddenFlags s2 = (true, false, true)) ∧
    (∀ s1 : AppState, hiddenFlags (hideAllSections s1) = (true, true, true)) := by
  refine ⟨visibleCount_runEvents events _ s h ?_, hiddenFlags_showLoading, hiddenFlags_showError, ?_,
    hiddenFlags_hideAllSections⟩
  · exact visibleCount_of_flags _ _ _ _ (hiddenFlags_hideAllSections s0) (by decide)
  · intro results s1 s2 h2
    rcases displayResults_cases results s1 with ⟨s3, h1, hf, -, -⟩ | ⟨t, h1, -, -, -⟩
    · rw [h1] at h2
      cases h2
      exact hf
    · rw [h1] at h2
      cases h2

/-- C6 on a run in which a file is chosen and submitted and the request
fails: the error area alone is on display. -/
theorem at_most_one_area_visible_witness :
    ∃ s : AppState,
      runEvents [.fileSelect (some ⟨"data.csv", "a,b"⟩), .submit, .analyzeSettled 0 .failure]
        (initializeApp AppState.initial) = some s ∧
      visibleCount s ≤ 1 ∧ hiddenFlags s = (true, true, false) :=
  ⟨_, rfl, (at_most_one_area_visible AppState.initial
      [.fileSelect (some ⟨"data.csv", "a,b"⟩), .submit, .analyzeSettled 0 .failure] _ rfl).1, rfl⟩

/-! ## C5: the submit button as the guard of the request -/

/-- C5 on the run: choose a file, submit it, choose a file again. `showLoading`
has disabled the submit button for the request, and `handleFileSelect` enables
it again: the request is in flight and the button is enabled; a second submit
then puts a second request in flight. -/
theorem button_enabled_in_flight :
    (runEvents [.fileSelect (some ⟨"data.csv", "a,b"⟩), .submit, .fileSelect (some ⟨"data.csv", "a,b"⟩)]
        (initializeApp AppState.initial)).map (fun s => (s.pendingAnalyze.length, s.analyzeBtnDisabled))
      = some (1, false) ∧
    (runEvents [.fileSelect (some ⟨"data.csv", "a,b"⟩), .submit, .fileSelect (some ⟨"data.csv", "a,b"⟩), .submit]
        (initializeApp AppState.initial)).map (fun s => (s.pendingAnalyze.length, s.analyzeBtnDisabled))
      = some (2, true) := by
  decide

/-- The other ways the button comes to be enabled while a request is in
flight: the health probe fails after the submit; or the result of a first
submission is displayed after a file has been chosen and submitted again. -/
theorem button_enabled_by_other_events :
    (runEvents [.fileSelect (some ⟨"data.csv", "a,b"⟩), .submit, .healthFail]
        (initializeApp AppState.initial)).map (fun s => (s.pendingAnalyze.length, s.analyzeBtnDisabled))
      = some (1, false) ∧
    (runEvents [.fileSelect (some ⟨"data.csv", "a,b"⟩), .submit,
          .analyzeSettled 0 (.success ⟨some BasicInfo.empty, none, none, none, none, none⟩),
          .fileSelect (some ⟨"data.csv", "a,b"⟩), .submit, .timer 4]
        (initializeApp AppState.initial)).map
          (fun s => (s.pendingAnalyze.length, s.analyzeBtnDisabled, s.resultsHidden))
      = some (1, false, false) := by
  decide

theorem length_filter_filter_le {α : Type} (p q : α → Bool) (l : List α) :
    ((l.filter q).filter p).length ≤ (l.filter p).length :=
  ((List.filter_sublist l).filter p).length_le

theorem length_filter_map_le {α : Type} (p : α → Bool) (g : α → α) (l : List α)
    (h : ∀ a, p (g a) = true → p a = true) :
    ((l.map g).filter p).length ≤ (l.filter p).length := by
  induction l with
  | nil => simp
  | cons a l ih =>
    simp only [List.map_cons, List.filter_cons]
    cases hg : p (g a) with
    | false =>
      simp only [Bool.false_eq_true, if_false]
      split
      · simp only [List.length_cons]; omega
      · exact ih
    | true =>
      rw [if_pos (h a hg)]
      simp only [if_true, List.length_cons]
      omega

theorem length_filter_filter_lt {α : Type} (p q : α → Bool) (l : List α) (a : α)
    (ha : a ∈ l) (hp : p a = true) (hq : q a = false) :
    ((l.filter q).filter p).length < (l.filter p).length := by
  induction l with
  | nil => cases ha
  | cons b l ih =>
    rcases List.mem_cons.mp ha with rfl | hmem
    · simp only [List.filter_cons, hq, hp, Bool.false_eq_true, if_false, if_true, List.length_cons]
      have := length_filter_filter_le p q l
      omega
    · have := ih hmem
      simp only [List.filter_cons]
      cases hqb : q b <;> cases hpb : p b <;>
        simp only [Bool.false_eq_true, if_false, if_true, List.filter_cons, hpb, List.length_cons] <;> omega

theorem showCount_clearInterval_le (id : Nat) (s : AppState) :
    showCount (clearInterval id s) ≤ showCount s :=
  length_filter_filter_le _ _ _

theorem showCount_setTimer (kind : TimerKind) (delay : Nat) (s : AppState) :
    showCount (setTimer kind delay s) =
      showCount s + (if Timer.isShowResults ⟨s.nextTimerId, s.now + delay, kind⟩ then 1 else 0) := by
  simp only [showCount, setTimer, List.filter_append, List.length_append, List.filter_cons,
    List.filter_nil]
  split <;> rfl

theorem showCount_setStage_le (id stage : Nat) (s : AppState) :
    showCount (setStage id stage s) ≤ showCount s := by
  apply length_filter_map_le
  intro t
  split
  · intro h; cases h
  · exact fun h => h

theorem showCount_progressTick_le (id k : Nat) (s : AppState) :
    showCount (progressTick id k s) ≤ showCount s := by
  unfold progressTick
  split
  · exact showCount_setStage_le _ _ _
  · exact showCount_clearInterval_le id s


theorem showCount_analyzeData (file : SelectedFile) (s : AppState) :
    showCount (analyzeData file s) = showCount s ∧
    (analyzeData file s).pendingAnalyze = s.pendingAnalyze ++ [file] ∧
    (analyzeData file s).analyzeBtnDisabled = true := by
  simp only [analyzeData, showLoading, setTimer, showCount, hideAllSections]
  split <;> simp [List.filter_append, Timer.isShowResults]

theorem showCount_completeProgress (s : AppState) :
    showCount (completeProgress s) ≤ showCount s ∧
    (completeProgress s).pendingAnalyze = s.pendingAnalyze ∧
    (completeProgress s).analyzeBtnDisabled = s.analyzeBtnDisabled := by
  unfold completeProgress
  split
  · rename_i id _
    refine ⟨?_, rfl, rfl⟩
    rw [showCount_setTimer]
    simp only [Timer.isShowResults, Bool.false_eq_true, if_false, Nat.add_zero]
    exact showCount_clearInterval_le id s
  · refine ⟨?_, rfl, rfl⟩
    rw [showCount_setTimer]
    simp only [Timer.isShowResults, Bool.false_eq_true, if_false, Nat.add_zero]
    exact Nat.le_refl _

theorem showCount_analyzeDataSuccess (file : SelectedFile) (results : AnalysisResult) (s : AppState) :
    showCount (analyzeDataSuccess file results s) ≤ showCount s + 1 ∧
    (analyzeDataSuccess file results s).pendingAnalyze = s.pendingAnalyze ∧
    (analyzeDataSuccess file results s).analyzeBtnDisabled = s.analyzeBtnDisabled := by
  obtain ⟨h1, h2, h3⟩ := showCount_completeProgress s
  unfold analyzeDataSuccess
  refine ⟨?_, h2, h3⟩
  rw [showCount_setTimer]
  simp only [Timer.isShowResults, if_true]
  have : showCount { completeProgress s with lastAnalysisResults := some results, lastFileName := some file.name }
      = showCount (completeProgress s) := rfl
  simp only at this ⊢
  omega

theorem showCount_analyzeDataFailure (s : AppState) :
    showCount (analyzeDataFailure s) ≤ showCount s ∧
    (analyzeDataFailure s).pendingAnalyze = s.pendingAnalyze := by
  unfold analyzeDataFailure
  split
  · rename_i id _
    exact ⟨showCount_clearInterval_le id s, rfl⟩
  · exact ⟨Nat.le_refl _, rfl⟩

theorem guarded_of_zero (s : AppState) (h : unfinished s = 0) : Guarded s :=
  ⟨by omega, fun h2 => by omega⟩

theorem guarded_of_le (s s2 : AppState) (hs : Guarded s) (hu : unfinished s2 ≤ unfinished s)
    (hb : s2.analyzeBtnDisabled = s.analyzeBtnDisabled) : Guarded s2 :=
  ⟨by have := hs.1; omega, fun h2 => by rw [hb]; exact hs.2 (by omega)⟩

theorem guarded_settleAnalyze (i : Nat) (outcome : AnalyzeOutcome) (s : AppState)
    (hi : i < s.pendingAnalyze.length) (hs : Guarded s) : Guarded (settleAnalyze i outcome s) := by
  unfold settleAnalyze
  have hget : s.pendingAnalyze.get? i = some (s.pendingAnalyze.get ⟨i, hi⟩) := List.get?_eq_get hi
  rw [hget]
  simp only
  have hlen : (s.pendingAnalyze.eraseIdx i).length = s.pendingAnalyze.length - 1 :=
    List.length_eraseIdx_of_lt hi
  cases outcome with
  | success results =>
    simp only
    obtain ⟨h1, h2, h3⟩ := showCount_analyzeDataSuccess (s.pendingAnalyze.get ⟨i, hi⟩) results
      { s with pendingAnalyze := s.pendingAnalyze.eraseIdx i }
    apply guarded_of_le s _ hs
    · unfold unfinished
      rw [h2]
      have : showCount { s with pendingAnalyze := s.pendingAnalyze.eraseIdx i } = showCount s := rfl
      simp only [hlen] at this ⊢
      omega
    · exact h3
  | failure =>
    simp only
    obtain ⟨h1, h2⟩ := showCount_analyzeDataFailure { s with pendingAnalyze := s.pendingAnalyze.eraseIdx i }
    apply guarded_of_zero
    unfold unfinished
    rw [h2]
    have : showCount { s with pendingAnalyze := s.pendingAnalyze.eraseIdx i } = showCount s := rfl
    have hu := hs.1
    unfold unfinished at hu
    simp only [hlen] at this ⊢
    omega


theorem showCount_simulateProgress (s : AppState) :
    showCount (simulateProgress s) = showCount s := by
  simp [simulateProgress, stages, showCount, setTimer, updateProgress, List.filter_append,
    Timer.isShowResults]

theorem guarded_fireTimer (t : Timer) (s : AppState) (ht : t ∈ s.timers) (hs : Guarded s) :
    Guarded (fireTimer t s) := by
  unfold fireTimer
  have hclear : showCount (clearInterval t.id { s with now := max s.now t.due }) ≤ showCount s :=
    showCount_clearInterval_le t.id { s with now := max s.now t.due }
  cases hk : t.kind with
  | resetProgress =>
    refine guarded_of_le s _ hs ?_ ?_
    · exact Nat.add_le_add_left hclear _
    · rfl
  | startSimulation =>
    refine guarded_of_le s _ hs ?_ ?_
    · simp only [unfinished]
      rw [showCount_simulateProgress]
      exact Nat.add_le_add_left hclear _
    · rfl
  | hideSections =>
    refine guarded_of_le s _ hs ?_ ?_
    · exact Nat.add_le_add_left hclear _
    · rfl
  | progressTick k =>
    simp only
    have h1 := showCount_progressTick_le t.id k (reschedule t { s with now := max s.now t.due })
    have h2 : showCount (reschedule t { s with now := max s.now t.due }) ≤ showCount s := by
      apply length_filter_map_le
      intro u
      split
      · exact fun h => h
      · exact fun h => h
    have h3 : (progressTick t.id k (reschedule t { s with now := max s.now t.due })).pendingAnalyze
        = s.pendingAnalyze := by
      unfold progressTick
      split <;> rfl
    have h4 : (progressTick t.id k (reschedule t { s with now := max s.now t.due })).analyzeBtnDisabled
        = s.analyzeBtnDisabled := by
      unfold progressTick
      split <;> rfl
    refine guarded_of_le s _ hs ?_ h4
    unfold unfinished
    rw [h3]
    omega
  | showResults results =>
    simp only
    have hlt : showCount (clearInterval t.id { s with now := max s.now t.due }) < showCount s := by
      apply length_filter_filter_lt _ _ _ t ht
      · simp [Timer.isShowResults, hk]
      · simp
    have hu := hs.1
    have hp : s.pendingAnalyze.length = 0 := by unfold unfinished at hu; omega
    have hz : showCount (clearInterval t.id { s with now := max s.now t.due }) = 0 := by
      unfold unfinished at hu; omega
    rcases displayResults_cases results (clearInterval t.id { s with now := max s.now t.due }) with
      ⟨s2, h1, -, h3, h4⟩ | ⟨th, h1, -, h3, h4⟩
    · rw [h1]
      apply guarded_of_zero
      simp only [unfinished, showCount, h3, h4] at hz ⊢
      simp only [clearInterval] at hz ⊢
      omega
    · rw [h1]
      apply guarded_of_zero
      simp only [unfinished, showCount, onGlobalError, showError, hideAllSections, h3, h4] at hz ⊢
      simp only [clearInterval] at hz ⊢
      omega


theorem guarded_step (e : Event) (s s2 : AppState) (h : step e s = some s2)
    (hg : reenables e s = true → unfinished s = 0) (hs : Guarded s) : Guarded s2 := by
  cases e with
  | fileSelect file =>
    simp only [step, Option.some.injEq] at h
    subst h
    cases file with
    | none => exact ⟨hs.1, fun _ => rfl⟩
    | some f => exact guarded_of_zero _ (hg rfl)
  | submit =>
    simp only [step] at h
    split at h
    · cases h
    · rename_i hb
      simp only [Option.some.injEq] at h
      subst h
      have hz : unfinished s = 0 := by
        by_contra hne
        exact hb (hs.2 (by omega))
      unfold handleFormSubmit
      split
      · exact guarded_of_zero _ hz
      · split
        · exact guarded_of_zero _ hz
        · rename_i file _ _
          obtain ⟨h1, h2, h3⟩ := showCount_analyzeData file s
          refine ⟨?_, fun _ => h3⟩
          unfold unfinished at hz ⊢
          rw [h1, h2, List.length_append]
          simp only [List.length_singleton]
          omega
  | analyzeSettled i outcome =>
    simp only [step] at h
    split at h
    · rename_i hi
      simp only [Option.some.injEq] at h
      subst h
      exact guarded_settleAnalyze i outcome s hi hs
    · cases h
  | timer id =>
    simp only [step] at h
    split at h
    · rename_i t ht
      simp only [Option.some.injEq] at h
      subst h
      exact guarded_fireTimer t s (List.mem_of_find?_eq_some ht) hs
    · cases h
  | downloadClick =>
    simp only [step, Option.some.injEq] at h
    subst h
    unfold handleDownloadPDF
    split
    · rename_i results filename hr hf
      split
      · exact guarded_of_le s _ hs (Nat.le_refl _) rfl
      · rename_i hne
        refine guarded_of_zero _ (hg ?_)
        simp only [reenables, hr, hf, truthyStr]
        simpa using hne
    · rename_i hno
      refine guarded_of_zero _ (hg ?_)
      simp only [reenables]
      cases hr : s.lastAnalysisResults with
      | none => rfl
      | some results =>
        cases hf : s.lastFileName with
        | none => simp [truthyStr]
        | some filename => exact absurd hf (hno results filename hr)
  | pdfOk i iso =>
    simp only [step] at h
    split at h
    · simp only [Option.some.injEq] at h
      subst h
      unfold handleDownloadPDFSuccess
      split
      · exact guarded_of_le s _ hs (Nat.le_refl _) rfl
      · rename_i hnone
        refine guarded_of_zero _ (hg ?_)
        simp only [reenables]
        simpa using hnone
    · cases h
  | pdfFail i =>
    simp only [step] at h
    split at h
    · simp only [Option.some.injEq] at h
      subst h
      exact guarded_of_zero _ (hg rfl)
    · cases h
  | healthFail =>
    simp only [step, Option.some.injEq] at h
    subst h
    exact guarded_of_zero _ (hg rfl)
  | globalError =>
    simp only [step, Option.some.injEq] at h
    subst h
    exact guarded_of_zero _ (hg rfl)

theorem guarded_runEventsApart (events : List Event) (s s2 : AppState)
    (h : runEventsApart events s = some s2) (hs : Guarded s) : Guarded s2 := by
  induction events generalizing s with
  | nil =>
    simp only [runEventsApart, Option.some.injEq] at h
    subst h
    exact hs
  | cons e es ih =>
    simp only [runEventsApart] at h
    split at h
    · cases h
    · rename_i hguard
      cases hstep : step e s with
      | none => rw [hstep] at h; cases h
      | some s1 =>
        rw [hstep] at h
        refine ih s1 h (guarded_step e s s1 hstep ?_ hs)
        intro hre
        simp only [hre, Bool.true_and, bne_iff_ne, ne_eq, Decidable.not_not] at hguard
        exact hguard

/-- What the guard of `showLoading` does achieve. From a page with no request
in flight and no timer pending, along every sequence of events in which a
file is chosen, or `showError` runs for the export, the health probe or the
`error` listener, only while no submission is unfinished, at most one request
is in flight and the submit button is disabled while one is. Choosing a file
and `showError` enable the button whatever the state, which is how the other
runs break the guard. -/
theorem button_disabled_in_flight (s0 : AppState) (h0 : s0.pendingAnalyze = []) (ht : s0.timers = [])
    (events : List Event) (s : AppState) (h : runEventsApart events s0 = some s) :
    s.pendingAnalyze.length ≤ 1 ∧
    (s.pendingAnalyze ≠ [] → s.analyzeBtnDisabled = true) ∧
    (∀ (s1 : AppState) (file : SelectedFile),
      (handleFileSelect { s1 with csvFile := some file }).analyzeBtnDisabled = false) ∧
    (∀ (m : String) (s1 : AppState), (showError m s1).analyzeBtnDisabled = false) := by
  have hs0 : Guarded s0 := guarded_of_zero s0 (by simp [unfinished, showCount, h0, ht])
  obtain ⟨h1, h2⟩ := guarded_runEventsApart events s0 s h hs0
  refine ⟨?_, ?_, fun _ _ => rfl, fun _ _ => rfl⟩
  · unfold unfinished at h1; omega
  · intro hne
    apply h2
    have : 0 < s.pendingAnalyze.length := List.length_pos.mpr hne
    unfold unfinished
    omega

/-- The guard on the run: choose a file, submit it. -/
theorem button_disabled_in_flight_witness :
    ∃ s : AppState,
      runEventsApart [.fileSelect (some ⟨"data.csv", "a,b"⟩), .submit] AppState.initial = some s ∧
      s.pendingAnalyze.length = 1 ∧ s.analyzeBtnDisabled = true :=
  ⟨_, rfl, rfl, (button_disabled_in_flight AppState.initial rfl rfl
      [.fileSelect (some ⟨"data.csv", "a,b"⟩), .submit] _ rfl).2.1 (List.cons_ne_nil _ _)⟩

/-! ## The clock, for any arrival after the simulator has started -/

theorem advanceTo_fire (limit fuel d : Nat) (s : AppState) (h : nextDue s = some d) (hd : d ≤ limit) :
    advanceTo limit (fuel + 1) s = advanceTo limit fuel (fireNext s) := by
  unfold nextDue at h
  cases ht : nextTimer s.timers with
  | none => rw [ht] at h; cases h
  | some t =>
    rw [ht] at h
    simp only [Option.map_some', Option.some.injEq] at h
    simp only [advanceTo, fireNext, ht, h, hd, if_true]

theorem advanceTo_stop (limit fuel : Nat) (s : AppState)
    (h : nextDue s = none ∨ ∃ d, nextDue s = some d ∧ limit < d) :
    advanceTo limit (fuel + 1) s = { s with now := max s.now limit } := by
  unfold nextDue at h
  cases ht : nextTimer s.timers with
  | none => simp only [advanceTo, ht]
  | some t =>
    rw [ht] at h
    rcases h with h | ⟨d, h, hd⟩
    · cases h
    · simp only [Option.map_some', Option.some.injEq] at h
      have : ¬ t.due ≤ limit := by omega
      simp only [advanceTo, ht, this, if_false]

/-- Letting time pass fires the timers due by the limit, one after the
other, and then only moves the clock. -/
theorem advanceTo_iterate (limit k : Nat) (fuel : Nat) (s : AppState) (hf : k < fuel)
    (h : ∀ j, j < k → ∃ d, nextDue (fireNext^[j] s) = some d ∧ d ≤ limit)
    (hstop : nextDue (fireNext^[k] s) = none ∨ ∃ d, nextDue (fireNext^[k] s) = some d ∧ limit < d) :
    advanceTo limit fuel s = { fireNext^[k] s with now := max (fireNext^[k] s).now limit } := by
  induction k generalizing s fuel with
  | zero =>
    obtain ⟨fuel, rfl⟩ : ∃ f, fuel = f + 1 := ⟨fuel - 1, by omega⟩
    exact advanceTo_stop limit fuel s hstop
  | succ k ih =>
    obtain ⟨fuel, rfl⟩ : ∃ f, fuel = f + 1 := ⟨fuel - 1, by omega⟩
    obtain ⟨d, h0, hd⟩ := h 0 (by omega)
    rw [advanceTo_fire limit fuel d s h0 hd]
    rw [ih fuel (fireNext s) (by omega)]
    · rfl
    · intro j hj
      exact h (j + 1) (by omega)
    · exact hstop


/-- The due times of the timers of one submission, in the order they fire
when nothing else happens: the reset, the start of the simulator, and the six
ticks of its interval, the last of which clears it. -/
theorem submitted_nextDue :
    (List.range 9).map (fun k => nextDue (fireNext^[k] submitted)) =
      [some 100, some 200, some 1200, some 2200, some 3200, some 4200, some 5200, some 6200, none] := by
  decide!

/-- Once the simulator has started, every pending timer is its interval, the
clock stands at the time of the last timer fired, the request is still in
flight, and the percentages shown so far, followed by 100, do not decrease. -/
theorem submitted_started (k : Nat) (h2 : 2 ≤ k) (h8 : k ≤ 8) :
    (∀ t ∈ (fireNext^[k] submitted).timers, intervalHandle (fireNext^[k] submitted) = some t.id) ∧
    nextDue (fireNext^[k - 1] submitted) = some (fireNext^[k] submitted).now ∧
    (fireNext^[k] submitted).pendingAnalyze.length = 1 ∧
    (percents (fireNext^[k] submitted) ++ [100]).Pairwise (· ≤ ·) := by
  interval_cases k <;> decide!

theorem completeProgress_timers (s : AppState)
    (ht : ∀ t ∈ s.timers, intervalHandle s = some t.id) :
    (completeProgress s).timers = [⟨s.nextTimerId, s.now + 500, .hideSections⟩] ∧
    (completeProgress s).progressLog = (100, "¡Análisis completado!") :: s.progressLog ∧
    (completeProgress s).nextTimerId = s.nextTimerId + 1 ∧
    (completeProgress s).now = s.now := by
  unfold completeProgress
  split
  · rename_i id hh
    have hfil : s.timers.filter (fun t => t.id != id) = [] := by
      rw [List.filter_eq_nil_iff]
      intro t hmem
      have := ht t hmem
      rw [hh] at this
      simp only [Option.some.injEq] at this
      simp [this]
    simp only [setTimer, updateProgress, clearInterval, hfil, List.nil_append, and_self]
  · rename_i hh
    have hnil : s.timers = [] := by
      cases hl : s.timers with
      | nil => rfl
      | cons t ts =>
        have := ht t (by rw [hl]; exact List.mem_cons_self _ _)
        rw [hh] at this
        cases this
    simp only [setTimer, updateProgress, hnil, List.nil_append, and_self]

/-- The end of the `try` block of `analyzeData`, on a page whose only pending
timers are the interval of the simulator: the interval is cleared, 100 is
shown, and the delayed hide and the delayed `displayResults` are the two
timers left. -/
theorem settleAnalyze_success (results : AnalysisResult) (s : AppState)
    (hp : 0 < s.pendingAnalyze.length)
    (ht : ∀ t ∈ s.timers, intervalHandle s = some t.id) :
    (settleAnalyze 0 (.success results) s).timers =
      [⟨s.nextTimerId, s.now + 500, .hideSections⟩,
       ⟨s.nextTimerId + 1, s.now + 1000, .showResults results⟩] ∧
    (settleAnalyze 0 (.success results) s).progressLog = (100, "¡Análisis completado!") :: s.progressLog := by
  unfold settleAnalyze
  have hget : s.pendingAnalyze.get? 0 = some (s.pendingAnalyze.get ⟨0, hp⟩) := List.get?_eq_get hp
  rw [hget]
  obtain ⟨h1, h2, h3, h4⟩ := completeProgress_timers { s with pendingAnalyze := s.pendingAnalyze.eraseIdx 0 } ht
  simp only at h1 h2 h3 h4
  simp only [analyzeDataSuccess, setTimer, h1, h2, h3, h4, List.cons_append, List.nil_append, and_self]

/-- With only the delayed hide and the delayed `displayResults` pending, the
moment before `displayResults` is due the hide has run, nothing has been shown
since, and `displayResults` is the one timer left. -/
theorem advanceTo_before_results (results : AnalysisResult) (s : AppState) (i n : Nat)
    (ht : s.timers = [⟨i, n + 500, .hideSections⟩, ⟨i + 1, n + 1000, .showResults results⟩]) (fuel : Nat) :
    (advanceTo (n + 999) (fuel + 2) s).timers = [⟨i + 1, n + 1000, .showResults results⟩] ∧
    (advanceTo (n + 999) (fuel + 2) s).progressLog = s.progressLog := by
  have h1 : nextTimer s.timers = some ⟨i, n + 500, .hideSections⟩ := by
    rw [ht]
    simp [nextTimer]
  have e1 : advanceTo (n + 999) (fuel + 2) s
      = advanceTo (n + 999) (fuel + 1) (fireTimer ⟨i, n + 500, .hideSections⟩ s) := by
    simp [advanceTo, h1]
  have ht2 : (fireTimer ⟨i, n + 500, .hideSections⟩ s).timers = [⟨i + 1, n + 1000, .showResults results⟩] := by
    simp [fireTimer, hideAllSections, clearInterval, ht]
  have h2 : nextTimer (fireTimer ⟨i, n + 500, .hideSections⟩ s).timers
      = some ⟨i + 1, n + 1000, .showResults results⟩ := by
    rw [ht2]
    simp [nextTimer]
  rw [e1]
  simp only [advanceTo, h2]
  have : ¬ (n + 1000 ≤ n + 999) := by omega
  simp only [this, if_false]
  exact ⟨ht2, rfl⟩


theorem submitted_due (j : Nat) (hj : j < 8) :
    nextDue (fireNext^[j] submitted) = some ([100, 200, 1200, 2200, 3200, 4200, 5200, 6200].getD j 0) := by
  interval_cases j <;> decide!

theorem submitted_idle : nextDue (fireNext^[8] submitted) = none := by
  decide!

/-- An arrival from 200 ms on falls after the start of the simulator and
between two consecutive timers of the submission, or after the last. -/
theorem arrival_cases (T : Nat) (hT : 200 ≤ T) :
    ∃ k, 2 ≤ k ∧ k ≤ 8 ∧
      (∀ j, j < k → ∃ d, nextDue (fireNext^[j] submitted) = some d ∧ d ≤ T) ∧
      (nextDue (fireNext^[k] submitted) = none ∨
        ∃ d, nextDue (fireNext^[k] submitted) = some d ∧ T < d) := by
  have hcases : ∃ k, 2 ≤ k ∧ k ≤ 8 ∧
      (∀ j, j < k → [100, 200, 1200, 2200, 3200, 4200, 5200, 6200].getD j 0 ≤ T) ∧
      (k < 8 → T < [100, 200, 1200, 2200, 3200, 4200, 5200, 6200].getD k 0) := by
    by_cases h1 : T < 1200
    · exact ⟨2, by omega, by omega, fun j hj => by interval_cases j <;> simp <;> omega, fun _ => by simpa using h1⟩
    by_cases h2 : T < 2200
    · exact ⟨3, by omega, by omega, fun j hj => by interval_cases j <;> simp <;> omega, fun _ => by simpa using h2⟩
    by_cases h3 : T < 3200
    · exact ⟨4, by omega, by omega, fun j hj => by interval_cases j <;> simp <;> omega, fun _ => by simpa using h3⟩
    by_cases h4 : T < 4200
    · exact ⟨5, by omega, by omega, fun j hj => by interval_cases j <;> simp <;> omega, fun _ => by simpa using h4⟩
    by_cases h5 : T < 5200
    · exact ⟨6, by omega, by omega, fun j hj => by interval_cases j <;> simp <;> omega, fun _ => by simpa using h5⟩
    by_cases h6 : T < 6200
    · exact ⟨7, by omega, by omega, fun j hj => by interval_cases j <;> simp <;> omega, fun _ => by simpa using h6⟩
    · exact ⟨8, by omega, by omega, fun j hj => by interval_cases j <;> simp <;> omega, fun h => by omega⟩
  obtain ⟨k, h2, h8, hprev, hstop⟩ := hcases
  refine ⟨k, h2, h8, fun j hj => ⟨_, submitted_due j (by omega), hprev j hj⟩, ?_⟩
  by_cases hk : k < 8
  · exact Or.inr ⟨_, submitted_due k hk, hstop hk⟩
  · have : k = 8 := by omega
    subst this
    exact Or.inl submitted_idle

theorem progress_late_case (T k : Nat) (results : AnalysisResult) (h2 : 2 ≤ k) (h8 : k ≤ 8)
    (hprev : ∀ j, j < k → ∃ d, nextDue (fireNext^[j] submitted) = some d ∧ d ≤ T)
    (hstop : nextDue (fireNext^[k] submitted) = none ∨
      ∃ d, nextDue (fireNext^[k] submitted) = some d ∧ T < d) :
    (percents (runSubmission ⟨"data.csv", "a,b"⟩ T (.success results) (T + 999))).Pairwise (· ≤ ·) ∧
    displayedPercent (runSubmission ⟨"data.csv", "a,b"⟩ T (.success results) (T + 999)) = some 100 ∧
    (runSubmission ⟨"data.csv", "a,b"⟩ T (.success results) (T + 999)).timers.map
      (fun t => (t.due, t.isShowResults)) = [(T + 1000, true)] := by
  have hrun := advanceTo_iterate T k 32 submitted (by omega) hprev hstop
  obtain ⟨c1, c2, c3, c4⟩ := submitted_started k h2 h8
  have hnow : (fireNext^[k] submitted).now ≤ T := by
    obtain ⟨d, hd, hle⟩ := hprev (k - 1) (by omega)
    rw [c2] at hd
    simp only [Option.some.injEq] at hd
    omega
  have hmax : max (fireNext^[k] submitted).now T = T := max_eq_right hnow
  rw [hmax] at hrun
  obtain ⟨t1, l1⟩ := settleAnalyze_success results { fireNext^[k] submitted with now := T }
    (by show 0 < (fireNext^[k] submitted).pendingAnalyze.length; omega) c1
  obtain ⟨t2, l2⟩ := advanceTo_before_results results
    (settleAnalyze 0 (.success results) { fireNext^[k] submitted with now := T })
    (fireNext^[k] submitted).nextTimerId T t1 30
  have hunf : runSubmission ⟨"data.csv", "a,b"⟩ T (.success results) (T + 999)
      = advanceTo (T + 999) 32 (settleAnalyze 0 (.success results) (advanceTo T 32 submitted)) := rfl
  rw [hunf, hrun]
  refine ⟨?_, ?_, ?_⟩
  · have : percents (advanceTo (T + 999) (30 + 2)
        (settleAnalyze 0 (.success results) { fireNext^[k] submitted with now := T }))
        = percents (fireNext^[k] submitted) ++ [100] := by
      simp only [percents, l2, l1, List.map_cons, List.reverse_cons]
    rw [this]
    exact c4
  · simp only [displayedPercent, l2, l1, List.head?_cons, Option.map_some']
  · rw [t2]
    rfl

/-- C2 for every arrival after the simulator has started (from 200 ms on):
the percentages passed to `updateProgress` up to the moment `displayResults`
is due never decrease, and 100 is on display at that moment. -/
theorem progress_late_any (T : Nat) (hT : 200 ≤ T) (results : AnalysisResult) :
    (percents (runSubmission ⟨"data.csv", "a,b"⟩ T (.success results) (T + 999))).Pairwise (· ≤ ·) ∧
    displayedPercent (runSubmission ⟨"data.csv", "a,b"⟩ T (.success results) (T + 999)) = some 100 ∧
    (runSubmission ⟨"data.csv", "a,b"⟩ T (.success results) (T + 999)).timers.map
      (fun t => (t.due, t.isShowResults)) = [(T + 1000, true)] := by
  obtain ⟨k, h2, h8, hprev, hstop⟩ := arrival_cases T hT
  exact progress_late_case T k results h2 h8 hprev hstop

theorem settleAnalyze_failure (s : AppState) (hp : 0 < s.pendingAnalyze.length)
    (ht : ∀ t ∈ s.timers, intervalHandle s = some t.id) :
    (settleAnalyze 0 .failure s).timers = [] ∧
    (settleAnalyze 0 .failure s).progressLog = s.progressLog := by
  unfold settleAnalyze
  have hget : s.pendingAnalyze.get? 0 = some (s.pendingAnalyze.get ⟨0, hp⟩) := List.get?_eq_get hp
  rw [hget]
  simp only [analyzeDataFailure]
  have ht2 : ∀ t ∈ s.timers, intervalHandle { s with pendingAnalyze := s.pendingAnalyze.eraseIdx 0 } = some t.id := ht
  split
  · rename_i id hh
    have hfil : s.timers.filter (fun t => t.id != id) = [] := by
      rw [List.filter_eq_nil_iff]
      intro t hmem
      have := ht2 t hmem
      rw [hh] at this
      simp only [Option.some.injEq] at this
      simp [this]
    simp only [showError, hideAllSections, clearInterval, hfil, and_self]
  · rename_i hh
    have hnil : s.timers = [] := by
      cases hl : s.timers with
      | nil => rfl
      | cons t ts =>
        have := ht2 t (by rw [hl]; exact List.mem_cons_self _ _)
        rw [hh] at this
        cases this
    simp only [showError, hideAllSections, hnil, and_self]

theorem advanceTo_no_timers (limit fuel : Nat) (s : AppState) (ht : s.timers = []) :
    (advanceTo limit fuel s).timers = [] ∧ (advanceTo limit fuel s).progressLog = s.progressLog := by
  cases fuel with
  | zero => exact ⟨ht, rfl⟩
  | succ fuel =>
    simp only [advanceTo, ht, nextTimer, and_self]

/-- C4 for every failure that arrives after the simulator has started (from
200 ms on): the `catch` block leaves no timer pending, and whatever time
passes afterwards no further update is made. -/
theorem cancel_late_any (T : Nat) (hT : 200 ≤ T) (horizon : Nat) :
    (runSubmission ⟨"data.csv", "a,b"⟩ T .failure horizon).timers = [] ∧
    percents (runSubmission ⟨"data.csv", "a,b"⟩ T .failure horizon) = percents (advanceTo T 32 submitted) := by
  obtain ⟨k, h2, h8, hprev, hstop⟩ := arrival_cases T hT
  have hrun := advanceTo_iterate T k 32 submitted (by omega) hprev hstop
  obtain ⟨c1, -, c3, -⟩ := submitted_started k h2 h8
  obtain ⟨t1, l1⟩ := settleAnalyze_failure
    { fireNext^[k] submitted with now := max (fireNext^[k] submitted).now T }
    (by show 0 < (fireNext^[k] submitted).pendingAnalyze.length; omega) c1
  obtain ⟨t2, l2⟩ := advanceTo_no_timers horizon 32 _ t1
  have hunf : runSubmission ⟨"data.csv", "a,b"⟩ T .failure horizon
      = advanceTo horizon 32 (settleAnalyze 0 .failure (advanceTo T 32 submitted)) := rfl
  rw [hunf, hrun]
  refine ⟨t2, ?_⟩
  simp only [percents, l2, l1]

/-! ## C11: the submit button after a file selection -/

/-- C11 at the file `data.txt`: its name does not end in `.csv`, and
`handleFileSelect` leaves the submit button enabled, with the name as
label. -/
theorem handleFileSelect_enables_txt :
    endsWith (toLowerCase "data.txt") ".csv" = false ∧
    (handleFileSelect { AppState.initial with csvFile := some ⟨"data.txt", "a,b"⟩ }).analyzeBtnDisabled = false ∧
    (handleFileSelect { AppState.initial with csvFile := some ⟨"data.txt", "a,b"⟩ }).fileLabel = "data.txt" := by
  decide

/-- C11 as amended. After a file selection the submit button is enabled
exactly when a file is present, whatever its name, and disabled when none is
chosen; the handler sends nothing; the extension is tested at submit only,
where a file with another extension gets the validation message and no
request. -/
theorem handleFileSelect_enabled_iff (s : AppState) (file : Option SelectedFile) :
    ((handleFileSelect { s with csvFile := file }).analyzeBtnDisabled = false ↔ ∃ f, file = some f) ∧
    ((handleFileSelect { s with csvFile := file }).analyzeBtnDisabled = true ↔ file = none) ∧
    (handleFileSelect { s with csvFile := file }).requests = s.requests ∧
    (handleFileSelect { s with csvFile := file }).pendingAnalyze = s.pendingAnalyze ∧
    (∀ f : SelectedFile, file = some f → ¬ EndsWithCsvIgnoringCase f.name →
      handleFormSubmit (handleFileSelect { s with csvFile := file })
        = showError "Por favor selecciona un archivo con extensión .csv"
            (handleFileSelect { s with csvFile := file }) ∧
      (handleFormSubmit (handleFileSelect { s with csvFile := file })).requests = s.requests) := by
  cases file with
  | none =>
    refine ⟨⟨fun h => ?_, fun ⟨f, hf⟩ => by cases hf⟩, ⟨fun _ => rfl, fun _ => rfl⟩, rfl, rfl, ?_⟩
    · exact absurd h (by simp [handleFileSelect])
    · intro f hf
      cases hf
  | some f0 =>
    refine ⟨⟨fun _ => ⟨f0, rfl⟩, fun _ => rfl⟩, ⟨fun h => ?_, fun h => by cases h⟩, rfl, rfl, ?_⟩
    · exact absurd h (by simp [handleFileSelect])
    · intro f hf hn
      cases hf
      have hb : endsWith (toLowerCase f0.name) ".csv" = false := by
        cases hb : endsWith (toLowerCase f0.name) ".csv" with
        | false => rfl
        | true => exact absurd ((endsWith_csv_iff f0.name).mp hb) hn
      have e : handleFormSubmit (handleFileSelect { s with csvFile := some f0 })
          = showError "Por favor selecciona un archivo con extensión .csv"
              (handleFileSelect { s with csvFile := some f0 }) := by
        simp [handleFormSubmit, handleFileSelect, hb]
      exact ⟨e, by rw [e]; rfl⟩

/-- C11 as amended, at the file `notes.txt` chosen on the page as loaded. -/
theorem handleFileSelect_enabled_iff_witness :
    (handleFileSelect { AppState.initial with csvFile := some ⟨"notes.txt", "x"⟩ }).analyzeBtnDisabled = false ∧
    (handleFileSelect { AppState.initial with csvFile := none }).analyzeBtnDisabled = true :=
  ⟨(handleFileSelect_enabled_iff AppState.initial (some ⟨"notes.txt", "x"⟩)).1.mpr ⟨_, rfl⟩,
   (handleFileSelect_enabled_iff AppState.initial none).2.1.mpr rfl⟩

/-! ## C12: the dimensions of the dataset -/

/-- The text shown for a dimension: the value of `dimensions` when it is
present and not zero; else the entry of `shape` when `shape` is present; and
`N/A` when there is neither a non-zero dimension nor a `shape`. -/
theorem dimensionText_cases (shape : Option (List Int)) (i : Nat) :
    (∀ n : Int, n ≠ 0 → dimensionText (some n) shape i = toString n) ∧
    (∀ (r c : Int), dimensionText none (some [r, c]) 0 = toString r ∧
      dimensionText none (some [r, c]) 1 = toString c) ∧
    dimensionText none none i = "N/A" ∧
    dimensionText (some 0) shape i = dimensionText none shape i := by
  refine ⟨fun n hn => ?_, fun r c => ⟨rfl, rfl⟩, rfl, rfl⟩
  simp [dimensionText, hn]

/-- C12 at the record with `dimensions` of 0 rows and 3 columns and no
`shape`: the row count shown is `N/A`, not 0; with the `shape` of 5 rows and
3 columns beside it, the row count shown is the 5 of `shape`. -/
theorem datasetInfo_zero_rows :
    dimensionText (some 0) none 0 = "N/A" ∧
    datasetInfoHtml { BasicInfo.empty with dimensions := some ⟨0, 3⟩ } =
      "<div class=\"info-box\"><h4>📊 Dimensiones del Dataset</h4><p><strong>Filas:</strong> N/A</p><p><strong>Columnas:</strong> 3</p></div>" ∧
    datasetInfoHtml { BasicInfo.empty with dimensions := some ⟨0, 3⟩, shape := some [5, 3] } =
      "<div class=\"info-box\"><h4>📊 Dimensiones del Dataset</h4><p><strong>Filas:</strong> 5</p><p><strong>Columnas:</strong> 3</p></div>" ∧
    datasetInfoHtml { BasicInfo.empty with dimensions := some ⟨7, 3⟩, shape := some [5, 4] } =
      "<div class=\"info-box\"><h4>📊 Dimensiones del Dataset</h4><p><strong>Filas:</strong> 7</p><p><strong>Columnas:</strong> 3</p></div>" := by
  decide

end DataApp1
